import Mathlib

/-!
Shallow embedding of the order-fulfillment core of `tribi_web`
(`apps/backend/app/api/orders.py`, `app/services/esim_inventory.py`,
`app/services/billing.py`, `app/services/payment_providers.py`,
`app/services/esim_providers.py`, `app/models/auth_models.py`).

The relational store is a `DB` record of lists; each endpoint is a pure
function `DB → … → DB × Except ApiError Response`.  Autoincrement ids are
explicit counters, timestamps are `Nat` parameters, provider network calls
(payment-intent creation, webhook signature verification, on-demand
provisioning) are passed in as values describing the provider's outcome.
JSON blobs that the code treats opaquely (raw payloads, metadata) are
modelled as opaque `String`s.
-/

namespace Tribi

/-- Python truthiness for an optional integer id (`if plan_id:`):
`None` and `0` are falsy. -/
def pyTruthyNat : Option Nat → Bool
  | none => false
  | some n => n != 0

/-- Python truthiness for an optional string (`if idempotency_key:`):
`None` and `""` are falsy. -/
def pyTruthyStr : Option String → Bool
  | none => false
  | some s => s != ""

/-- Python `a or b` on strings: `a` if non-empty, else `b`. -/
def strOr (a b : String) : String := if a == "" then b else a

/-- Python `a or b` on optional ids, keeping the option
(`esim.plan_id or order.plan_id`). -/
def pyOrNat (a b : Option Nat) : Option Nat := if pyTruthyNat a then a else b

/-- Python `a or b` on optional strings, keeping the option. -/
def pyOrStr (a b : Option String) : Option String := if pyTruthyStr a then a else b

/-- Python `str.lower()`: lowercase every character. -/
def strLower (s : String) : String := ⟨s.data.map Char.toLower⟩

/-- `OrderStatus` enum (`app/models/auth_models.py`). -/
inductive OrderStatus
  | created
  | paid
  | failed
  | refunded
deriving DecidableEq, Repr

/-- `PaymentStatus` enum (`app/models/auth_models.py`). -/
inductive PaymentStatus
  | requires_action
  | succeeded
  | failed
deriving DecidableEq, Repr

/-- `EsimStatus` enum (`app/models/auth_models.py`). -/
inductive EsimStatus
  | draft
  | pending_activation
  | reserved
  | assigned
  | active
  | failed
  | expired
deriving DecidableEq, Repr

/-- `EsimInventoryStatus` enum (`app/models/auth_models.py`). -/
inductive EsimInventoryStatus
  | available
  | reserved
  | assigned
  | retired
deriving DecidableEq, Repr

/-- `InvoiceStatus` enum (`app/models/auth_models.py`). -/
inductive InvoiceStatus
  | draft
  | issued
  | void
deriving DecidableEq, Repr

/-- A catalog plan, reduced to the fields `create_order` reads.
`price_minor_units` stands for `to_minor_units(plan.price_usd)`, which is
the value used both for the plan snapshot's `price_minor_units` and for the
`amount_minor_units` fallback in `create_order` (the two coincide in the
source, so the `<= 0` re-computation collapses). -/
structure Plan where
  id : Nat
  price_minor_units : Int
  country_id : Option Nat
  carrier_id : Option Nat
deriving DecidableEq, Repr

/-- `Order` row (`app/models/auth_models.py`).  Of the JSON
`plan_snapshot` we keep the fields the activation workflow reads
(`country_id`, `carrier_id`); the rest of the snapshot is never read back
by the code under verification. -/
structure Order where
  id : Nat
  user_id : Nat
  plan_id : Nat
  status : OrderStatus
  currency : String
  amount_minor_units : Int
  idempotency_key : Option String
  snap_country_id : Option Nat
  snap_carrier_id : Option Nat
deriving DecidableEq, Repr

/-- `EsimProfile` row (`app/models/auth_models.py`). -/
structure EsimProfile where
  id : Nat
  user_id : Nat
  order_id : Option Nat
  plan_id : Option Nat
  country_id : Option Nat
  carrier_id : Option Nat
  inventory_item_id : Option Nat
  activation_code : Option String
  iccid : Option String
  qr_payload : Option String
  instructions : Option String
  status : EsimStatus
  provisioned_at : Option Nat
  provider_reference : Option String
  provider_payload : Option String
deriving DecidableEq, Repr

/-- `EsimInventory` row (`app/models/auth_models.py`). -/
structure EsimInventory where
  id : Nat
  plan_id : Option Nat
  country_id : Option Nat
  carrier_id : Option Nat
  activation_code : Option String
  iccid : Option String
  qr_payload : Option String
  instructions : Option String
  status : EsimInventoryStatus
  provider_reference : Option String
  provider_payload : Option String
  reserved_at : Option Nat
  assigned_at : Option Nat
deriving DecidableEq, Repr

/-- `Payment` row (`app/models/auth_models.py`).  `provider` is kept as the
provider name string. -/
structure Payment where
  id : Nat
  order_id : Nat
  provider : String
  status : PaymentStatus
  intent_id : String
  raw_payload : Option String
deriving DecidableEq, Repr

/-- `Invoice` row (`app/models/auth_models.py`). -/
structure Invoice where
  id : Nat
  invoice_number : String
  order_id : Nat
  user_id : Nat
  currency : String
  amount_minor_units : Int
  tax_minor_units : Int
  status : InvoiceStatus
  issued_at : Nat
deriving DecidableEq, Repr

/-- `AnalyticsEvent` row (`app/models/analytics.py`), as written by
`record_event`. -/
structure AnalyticsEvent where
  id : Nat
  event_type : String
  user_id : Option Nat
  order_id : Option Nat
  plan_id : Option Nat
  amount_minor_units : Option Int
  currency : Option String
  occurred_at : Nat
deriving DecidableEq, Repr

/-- The relational store: one list per table plus autoincrement counters. -/
structure DB where
  plans : List Plan
  orders : List Order
  esims : List EsimProfile
  payments : List Payment
  inventory : List EsimInventory
  invoices : List Invoice
  events : List AnalyticsEvent
  nextOrderId : Nat
  nextEsimId : Nat
  nextPaymentId : Nat
  nextInventoryId : Nat
  nextInvoiceId : Nat
  nextEventId : Nat
deriving DecidableEq, Repr

/-- HTTP-level failure taxonomy used by the endpoints
(`HTTPException(status_code=404/400/502, …)`). -/
inductive ApiError
  | notFound (detail : String)
  | badRequest (detail : String)
  | badGateway (detail : String)
deriving DecidableEq, Repr

/-- `record_event` (`app/services/analytics.py`): append one analytics row
without committing. -/
def record_event (db : DB) (event_type : String) (user_id order_id plan_id : Option Nat)
    (amount_minor_units : Option Int) (currency : Option String) (now : Nat) : DB :=
  { db with
      events := db.events ++
        [⟨db.nextEventId, event_type, user_id, order_id, plan_id,
          amount_minor_units, currency, now⟩]
      nextEventId := db.nextEventId + 1 }

/-- The normalized idempotency key `f"{current_user.id}:{idempotency_key}"`
(`create_order`, orders.py:342). -/
def normalizedKey (user_id : Nat) (key : String) : String :=
  toString user_id ++ ":" ++ key

/-- The slice of the `OrderRead` response relevant to the claims
(`serialize_order`, orders.py:187). -/
structure OrderResponse where
  id : Nat
  status : OrderStatus
  currency : String
  amount_minor_units : Int
deriving DecidableEq, Repr

/-- `serialize_order` (orders.py:187), restricted to the claim-relevant
fields. -/
def serialize_order (o : Order) : OrderResponse :=
  ⟨o.id, o.status, strOr o.currency "USD", o.amount_minor_units⟩

/-- `create_order` (orders.py:328-402).  If a (truthy) idempotency key is
supplied and an order already carries the normalized key, that order is
returned with no writes.  Otherwise the plan is loaded (404 when missing),
an `Order(status=CREATED)` and a linked
`EsimProfile(status=PENDING_ACTIVATION)` are inserted, a
`checkout_started` event is recorded, and everything is committed. -/
def create_order (db : DB) (user_id plan_id : Nat) (currency0 : String)
    (idempotency_key : Option String) (now : Nat) :
    DB × Except ApiError OrderResponse :=
  let currency := strOr currency0 "USD"
  let nk : Option String :=
    if pyTruthyStr idempotency_key then
      idempotency_key.map (normalizedKey user_id)
    else none
  let existing : Option Order :=
    match nk with
    | some k => db.orders.find? (fun o => o.idempotency_key == some k)
    | none => none
  match existing with
  | some e => (db, .ok (serialize_order e))
  | none =>
    match db.plans.find? (fun p => p.id == plan_id) with
    | none => (db, .error (.notFound "Plan not found"))
    | some plan =>
      let amount := plan.price_minor_units
      let order : Order :=
        ⟨db.nextOrderId, user_id, plan_id, .created, currency, amount, nk,
          plan.country_id, plan.carrier_id⟩
      let esim : EsimProfile :=
        { id := db.nextEsimId
          user_id := user_id
          order_id := some order.id
          plan_id := some plan_id
          country_id := plan.country_id
          carrier_id := plan.carrier_id
          inventory_item_id := none
          activation_code := none
          iccid := none
          qr_payload := none
          instructions := none
          status := .pending_activation
          provisioned_at := none
          provider_reference := none
          provider_payload := none }
      let db1 :=
        { db with
            orders := db.orders ++ [order]
            esims := db.esims ++ [esim]
            nextOrderId := db.nextOrderId + 1
            nextEsimId := db.nextEsimId + 1 }
      let db2 := record_event db1 "checkout_started" (some user_id)
        (some order.id) (some plan_id) (some amount) (some currency) now
      (db2, .ok (serialize_order order))

/-- `_map_payment_status` (orders.py:262-268): normalize a provider status
string (missing or empty falls back to `"requires_action"`, then lowercase)
into the `PaymentStatus` enum; anything unrecognized becomes
`REQUIRES_ACTION`. -/
def map_payment_status (status : Option String) : PaymentStatus :=
  let base := match status with
    | none => "requires_action"
    | some s => strOr s "requires_action"
  let normalized := strLower base
  if normalized == "succeeded" then .succeeded
  else if normalized == "failed" then .failed
  else .requires_action

/-- `_update_order_status_from_payment` (orders.py:271-279) on a present
order: `SUCCEEDED` sets `PAID`, `FAILED` sets `FAILED`, anything else
leaves the status as it was. -/
def update_order_status_from_payment (st : OrderStatus) (ps : PaymentStatus) :
    OrderStatus :=
  match ps with
  | .succeeded => .paid
  | .failed => .failed
  | .requires_action => st

/-- `_generate_invoice_number` (billing.py:17-19); the `:06d` zero padding
of the order id is elided (the number is never parsed back). -/
def generate_invoice_number (o : Order) : String :=
  "TRB-" ++ toString o.id

/-- `generate_invoice_for_order` (billing.py:22-57): nothing happens for a
missing order or a falsy order id; an existing invoice for the order id is
returned as-is (`one_or_none`: with more than one row the query raises,
which `_maybe_issue_invoice` catches, so the store is also unchanged);
otherwise one `ISSUED` invoice is inserted. -/
def generate_invoice_for_order (db : DB) (order : Option Order) (now : Nat) : DB :=
  match order with
  | none => db
  | some o =>
    if o.id == 0 then db
    else
      match db.invoices.filter (fun i => i.order_id == o.id) with
      | [] =>
        let invoice : Invoice :=
          ⟨db.nextInvoiceId, generate_invoice_number o, o.id, o.user_id,
            strOr o.currency "USD", o.amount_minor_units, 0, .issued, now⟩
        { db with
            invoices := db.invoices ++ [invoice]
            nextInvoiceId := db.nextInvoiceId + 1 }
      | [_] => db
      | _ :: _ :: _ => db

/-- `_maybe_issue_invoice` (orders.py:282-295): only a present order with a
`SUCCEEDED` payment triggers invoice generation; generation failures are
swallowed. -/
def maybe_issue_invoice (db : DB) (order : Option Order)
    (payment_status : PaymentStatus) (now : Nat) : DB :=
  match order with
  | none => db
  | some o =>
    if payment_status != .succeeded then db
    else generate_invoice_for_order db (some o) now

/-- `_record_payment_success_event` (orders.py:298-325). -/
def record_payment_success_event (db : DB) (order : Option Order)
    (payment : Payment) (now : Nat) : DB :=
  match order with
  | none => db
  | some o =>
    let _ := payment
    record_event db "payment_succeeded" (some o.user_id) (some o.id)
      (some o.plan_id) (some o.amount_minor_units)
      (some (strOr o.currency "USD")) now

/-- The normalized `PaymentIntent` a provider returns
(`payment_providers.py:24-33`), restricted to claim-relevant fields. -/
structure PaymentIntent where
  intent_id : String
  status : String
  amount_minor_units : Int
  currency : String
deriving DecidableEq, Repr

/-- Claim-relevant slice of the `create_payment` response. -/
structure PaymentCreateResponse where
  intent_id : String
  status : String
deriving DecidableEq, Repr

/-- `create_payment` (orders.py:423-497).  The provider call
`payment_provider.create_intent(...)` is passed in as the `intent` it
returned (provider-name validation, which cannot touch the store, is
elided).  A `Payment` row is stored with the mapped status, the order
status is updated from the payment status, an invoice and success
analytics event are issued when the intent is already `succeeded`, and the
transaction commits. -/
def create_payment (db : DB) (user_id order_id : Nat) (provider : String)
    (intent : PaymentIntent) (now : Nat) :
    DB × Except ApiError PaymentCreateResponse :=
  match db.orders.find? (fun o => o.id == order_id && o.user_id == user_id) with
  | none => (db, .error (.notFound "Order not found"))
  | some order =>
    let payment_status := map_payment_status (some intent.status)
    let payment : Payment :=
      ⟨db.nextPaymentId, order_id, provider, payment_status, intent.intent_id,
        none⟩
    let updatedOrder :=
      { order with status := update_order_status_from_payment order.status payment_status }
    let db1 :=
      { db with
          payments := db.payments ++ [payment]
          nextPaymentId := db.nextPaymentId + 1
          orders := db.orders.map (fun x =>
            if x.id == order.id then
              { x with status := update_order_status_from_payment x.status payment_status }
            else x) }
    let db2 := maybe_issue_invoice db1 (some updatedOrder) payment_status now
    let db3 :=
      if payment_status == .succeeded then
        record_payment_success_event db2 (some updatedOrder) payment now
      else db2
    (db3, .ok ⟨intent.intent_id, intent.status⟩)

/-- A parsed webhook payload; the handlers treat it as an opaque document
passed between `parse_webhook_payload`, `process_webhook` and the stored
`raw_payload`. -/
structure WebhookPayload where
  raw : String
deriving DecidableEq, Repr

/-- `PaymentWebhookValidationError` / the raised `HTTPException`s on the
webhook path. -/
inductive WebhookValidationError
  | invalidJson
  | missingSignature
  | invalidSignature
  | missingPaymentObject
deriving DecidableEq, Repr

/-- Case-sensitive lookup of a header value, as Python's `dict.get`. -/
def headerGet (headers : List (String × String)) (k : String) : Option String :=
  (headers.find? (fun h => h.1 == k)).map (fun h => h.2)

/-- `PaymentProvider.parse_webhook_payload` (payment_providers.py:59-69),
the default parser the mock provider inherits: headers are discarded, an
empty body yields an empty payload, and the body is otherwise JSON-decoded
(decoding is the `jsonDecode` oracle; failure raises a validation error).
No signature of any kind is checked. -/
def default_parse_webhook_payload
    (jsonDecode : String → Option WebhookPayload) (body : String)
    (headers : List (String × String)) :
    Except WebhookValidationError WebhookPayload :=
  let _ := headers
  if body == "" then .ok ⟨""⟩
  else
    match jsonDecode body with
    | some payload => .ok payload
    | none => .error .invalidJson

/-- `StripePaymentProvider.parse_webhook_payload`
(payment_providers.py:193-219): require the configured webhook secret,
require a `stripe-signature` header (any of the three casings), and run
Stripe's `construct_event` signature verification (the `constructEvent`
oracle, taking body, signature header and secret); a verification failure
becomes a validation error.  The configured-secret check raises
`ValueError`, modelled as a distinguished error. -/
inductive StripeParseError
  | secretNotConfigured
  | validation (e : WebhookValidationError)
deriving DecidableEq, Repr

def stripe_parse_webhook_payload (webhookSecret : String)
    (constructEvent : String → String → String → Option WebhookPayload)
    (body : String) (headers : List (String × String)) :
    Except StripeParseError WebhookPayload :=
  if webhookSecret == "" then .error .secretNotConfigured
  else
    match (headerGet headers "stripe-signature").orElse
        (fun _ => (headerGet headers "Stripe-Signature").orElse
          (fun _ => headerGet headers "STRIPE-SIGNATURE")) with
    | none => .error (.validation .missingSignature)
    | some sig =>
      match constructEvent body sig webhookSecret with
      | none => .error (.validation .invalidSignature)
      | some event => .ok event

/-- The webhook endpoint's response body. -/
structure WebhookResponse where
  status : String
  intent_status : String
deriving DecidableEq, Repr

/-- `payment_webhook` (orders.py:500-555).  `parseResult` is the outcome of
`payment_provider.parse_webhook_payload(raw_body, headers)` and `processW`
is `payment_provider.process_webhook`; a validation failure becomes a 400
before the store is touched.  The matched payment takes the mapped status
and the raw payload, the matched order's status is derived from the
payment status, an invoice is issued on success, and the success analytics
event fires only when the payment newly transitions into `SUCCEEDED`. -/
def payment_webhook (db : DB)
    (parseResult : Except WebhookValidationError WebhookPayload)
    (processW : WebhookPayload → PaymentIntent) (now : Nat) :
    DB × Except ApiError WebhookResponse :=
  match parseResult with
  | .error _ => (db, .error (.badRequest "webhook validation failed"))
  | .ok payload =>
    let intent := processW payload
    if intent.intent_id == "" then
      (db, .error (.badRequest "Missing intent_id"))
    else
      match db.payments.find? (fun p => p.intent_id == intent.intent_id) with
      | none => (db, .error (.notFound "Payment not found"))
      | some payment =>
        let previous_status := payment.status
        let payment_status := map_payment_status (some intent.status)
        let orderOpt := db.orders.find? (fun o => o.id == payment.order_id)
        let updatedOrder := orderOpt.map (fun o =>
          { o with status := update_order_status_from_payment o.status payment_status })
        let db1 :=
          { db with
              payments := db.payments.map (fun p =>
                if p.id == payment.id then
                  { p with status := payment_status, raw_payload := some payload.raw }
                else p)
              orders :=
                match orderOpt with
                | none => db.orders
                | some o =>
                  db.orders.map (fun x =>
                    if x.id == o.id then
                      { x with status := update_order_status_from_payment x.status payment_status }
                    else x) }
        let db2 := maybe_issue_invoice db1 updatedOrder payment_status now
        let db3 :=
          if payment_status == .succeeded && previous_status != .succeeded then
            record_payment_success_event db2 updatedOrder payment now
          else db2
        (db3, .ok ⟨"processed", intent.status⟩)

/-- The availability filter built by `reserve_inventory_item`
(esim_inventory.py:24-33): status must be `AVAILABLE`, and the most
specific truthy filter (`if plan_id: … elif country_id: … elif
carrier_id:`) constrains the corresponding tag. -/
def invMatch (plan_id country_id carrier_id : Option Nat)
    (r : EsimInventory) : Bool :=
  r.status == .available &&
    (if pyTruthyNat plan_id then r.plan_id == plan_id
     else if pyTruthyNat country_id then r.country_id == country_id
     else if pyTruthyNat carrier_id then r.carrier_id == carrier_id
     else true)

/-- `query.order_by(EsimInventory.id).…first()` on the filtered rows: the
matching row with the smallest id, if any (ids are the autoincrement
primary key, so id order is insertion order). -/
def oldestMatch (rows : List EsimInventory) (f : EsimInventory → Bool) :
    Option EsimInventory :=
  (rows.filter f).argmin (fun r => r.id)

/-- `reserve_inventory_item` (esim_inventory.py:15-41): pick the oldest
`AVAILABLE` row matching the most specific truthy filter and flip it to
`RESERVED` with `reserved_at` set; with no match, return nothing and touch
nothing.  The `with_for_update(skip_locked=True)` row lock makes the whole
step atomic with respect to concurrent callers, which the embedding
reflects by treating the function as one atomic transition. -/
def reserve_inventory_item (rows : List EsimInventory)
    (plan_id country_id carrier_id : Option Nat) (now : Nat) :
    List EsimInventory × Option EsimInventory :=
  match oldestMatch rows (invMatch plan_id country_id carrier_id) with
  | none => (rows, none)
  | some item =>
    let item' := { item with status := .reserved, reserved_at := some now }
    (rows.map (fun r => if r.id == item.id then item' else r), some item')

/-- `EsimProvisioningResult` (esim_providers.py:21-30); `metadata` is an
opaque blob. -/
structure EsimProvisioningResult where
  activation_code : String
  iccid : Option String
  qr_payload : Option String
  instructions : Option String
  provider_reference : Option String
  metadata : Option String
deriving DecidableEq, Repr

/-- `result_from_inventory_item` (esim_inventory.py:44-58). -/
def result_from_inventory_item (it : EsimInventory) : EsimProvisioningResult :=
  { activation_code := (it.activation_code).getD ""
    iccid := it.iccid
    qr_payload := it.qr_payload
    instructions := it.instructions
    provider_reference := it.provider_reference
    metadata := some "INVENTORY" }

/-- `create_inventory_from_provisioning` (esim_inventory.py:61-87): insert
one `ASSIGNED` inventory row built from the provider response. -/
def create_inventory_from_provisioning (db : DB)
    (plan_id country_id carrier_id : Option Nat)
    (pr : EsimProvisioningResult) (now : Nat) : DB × EsimInventory :=
  let item : EsimInventory :=
    ⟨db.nextInventoryId, plan_id, country_id, carrier_id,
      some pr.activation_code, pr.iccid, pr.qr_payload, pr.instructions,
      .assigned, pr.provider_reference, pr.metadata, none, some now⟩
  ({ db with
      inventory := db.inventory ++ [item]
      nextInventoryId := db.nextInventoryId + 1 },
    item)

/-- The default install instructions (orders.py:46). -/
def DEFAULT_ESIM_INSTRUCTIONS : String :=
  "Install via Settings > Cellular > Add eSIM and scan the QR or enter the activation code manually."

/-- `_apply_provisioning_to_esim` (orders.py:49-89): resolve each
activation field via Python `or` chains (`freshCode`/`freshIccid` stand for
the `uuid4()` fallback draws), finalize the profile as `ACTIVE` with
`provisioned_at` set, and when an inventory row is attached fill its blank
fields, mark it `ASSIGNED` and link it to the profile. -/
def apply_provisioning_to_esim (esim : EsimProfile)
    (pr : EsimProvisioningResult) (inventory_item : Option EsimInventory)
    (freshCode freshIccid : String) (now : Nat) :
    EsimProfile × Option EsimInventory :=
  let activation_code :=
    strOr pr.activation_code (strOr ((esim.activation_code).getD "") freshCode)
  let iccid :=
    strOr ((pr.iccid).getD "") (strOr ((esim.iccid).getD "") ("89001" ++ freshIccid))
  let qr_payload :=
    strOr ((pr.qr_payload).getD "")
      (strOr ((esim.qr_payload).getD "") ("LPA:1$" ++ activation_code))
  let instructions :=
    strOr ((pr.instructions).getD "")
      (strOr ((esim.instructions).getD "") DEFAULT_ESIM_INSTRUCTIONS)
  let item' := inventory_item.map (fun it =>
    { it with
        activation_code := some (strOr ((it.activation_code).getD "") activation_code)
        iccid := some (strOr ((it.iccid).getD "") iccid)
        qr_payload := some (strOr ((it.qr_payload).getD "") qr_payload)
        instructions := some (strOr ((it.instructions).getD "") instructions)
        status := .assigned
        assigned_at := some ((it.assigned_at).getD now) })
  let esim' :=
    { esim with
        activation_code := some activation_code
        iccid := some iccid
        qr_payload := some qr_payload
        instructions := some instructions
        status := .active
        provider_reference := pyOrStr pr.provider_reference esim.provider_reference
        provider_payload := pr.metadata
        provisioned_at := some now
        inventory_item_id :=
          match item' with
          | some it => some it.id
          | none => esim.inventory_item_id }
  (esim', item')

/-- Claim-relevant slice of `serialize_esim` / `EsimProfileRead`
(orders.py:219-259). -/
structure EsimRead where
  id : Nat
  order_id : Option Nat
  activation_code : Option String
  iccid : Option String
  status : EsimStatus
  provisioned_at : Option Nat
  provider_reference : Option String
  qr_payload : Option String
  instructions : Option String
  inventory_item_id : Option Nat
deriving DecidableEq, Repr

/-- `serialize_esim` (orders.py:219-259), restricted to the claim-relevant
fields. -/
def serialize_esim (e : EsimProfile) : EsimRead :=
  ⟨e.id, e.order_id, e.activation_code, e.iccid, e.status, e.provisioned_at,
    e.provider_reference, e.qr_payload, e.instructions, e.inventory_item_id⟩

/-- The plan/country/carrier filters `activate_esim` feeds into
`reserve_inventory_item` (orders.py:599-610): the profile's tags, falling
back to the order's plan id and plan-snapshot country/carrier ids. -/
def activationFilters (order : Order) (esim : EsimProfile) :
    Option Nat × Option Nat × Option Nat :=
  (pyOrNat esim.plan_id (some order.plan_id),
   pyOrNat esim.country_id order.snap_country_id,
   pyOrNat esim.carrier_id order.snap_carrier_id)

/-- `activate_esim` (orders.py:558-662).  `provision` is the outcome of
`get_esim_provider().provision(order=order, profile=esim)`, consulted only
on the fallback path; a raised `EsimProvisioningError` surfaces as a 502
with nothing committed.  `freshCode`/`freshIccid` are the `uuid4()` draws
of `_apply_provisioning_to_esim`. -/
def activate_esim (db : DB) (user_id order_id : Nat)
    (provision : Except Unit EsimProvisioningResult)
    (freshCode freshIccid : String) (now : Nat) :
    DB × Except ApiError EsimRead :=
  match db.orders.find? (fun o => o.id == order_id && o.user_id == user_id) with
  | none => (db, .error (.notFound "Order not found"))
  | some order =>
    if order.status != .paid then
      (db, .error (.badRequest "Order must be paid before activating eSIM"))
    else
      match db.esims.find? (fun e => e.order_id == some order_id) with
      | none => (db, .error (.notFound "eSIM profile not found"))
      | some esim =>
        if (esim.provisioned_at).isSome ||
            esim.status == .assigned || esim.status == .active then
          (db, .ok (serialize_esim esim))
        else if !(esim.status == .pending_activation || esim.status == .reserved) then
          (db, .error (.badRequest "eSIM already activated or not ready for activation"))
        else
          match reserve_inventory_item db.inventory (activationFilters order esim).1
              (activationFilters order esim).2.1 (activationFilters order esim).2.2 now with
          | (inv1, some item) =>
            let pr := result_from_inventory_item item
            let (esim', item') :=
              apply_provisioning_to_esim esim pr (some item) freshCode freshIccid now
            let inv2 :=
              match item' with
              | some it => inv1.map (fun r => if r.id == it.id then it else r)
              | none => inv1
            let dbA :=
              { db with
                  inventory := inv2
                  esims := db.esims.map (fun x => if x.id == esim.id then esim' else x) }
            let dbB := record_event dbA "esim_activated" (some user_id)
              (some order.id) (activationFilters order esim).1 none none now
            (dbB, .ok (serialize_esim esim'))
          | (_, none) =>
            match provision with
            | .error _ => (db, .error (.badGateway "Unable to provision eSIM"))
            | .ok pr =>
              let (dbI, item) :=
                create_inventory_from_provisioning db (activationFilters order esim).1
                  (activationFilters order esim).2.1 (activationFilters order esim).2.2 pr now
              let (esim', item') :=
                apply_provisioning_to_esim esim pr (some item) freshCode freshIccid now
              let inv2 :=
                match item' with
                | some it => dbI.inventory.map (fun r => if r.id == it.id then it else r)
                | none => dbI.inventory
              let dbA :=
                { dbI with
                    inventory := inv2
                    esims := dbI.esims.map (fun x => if x.id == esim.id then esim' else x) }
              let dbB := record_event dbA "esim_activated" (some user_id)
                (some order.id) (activationFilters order esim).1 none none now
              (dbB, .ok (serialize_esim esim'))

/-- Where one activation's eSIM came from: a pre-stocked inventory row it
reserved, or a row materialized after fallback provisioning.  Either way
`inv_id` is the inventory row the activation ends up assigned to. -/
inductive ActivationSource
  | fromInventory (inv_id : Nat)
  | fromFallback (inv_id : Nat)
deriving DecidableEq, Repr

def ActivationSource.invId : ActivationSource → Nat
  | .fromInventory i => i
  | .fromFallback i => i

def ActivationSource.isFromInventory : ActivationSource → Bool
  | .fromInventory _ => true
  | .fromFallback _ => false

/-- The per-call data of one racing activation: its own pre-registered
profile, the fallback provider's result should it be needed, and the
`uuid4()` draws of `_apply_provisioning_to_esim`. -/
structure ActivationCall where
  esim : EsimProfile
  pr : EsimProvisioningResult
  freshCode : String
  freshIccid : String
deriving DecidableEq, Repr

/-- One activation's inventory-allocation step — `activate_esim`'s effect
on the `esim_inventory` table (orders.py:612-644): attempt
`reserve_inventory_item`; on a hit, `_apply_provisioning_to_esim` flips
the reserved row to `ASSIGNED`; on a miss, the provider provisions and
`create_inventory_from_provisioning` materializes an `ASSIGNED` row.
The `FOR UPDATE SKIP LOCKED` row lock inside `reserve_inventory_item`
makes the claim-or-skip step atomic under concurrency, so N racing
activations are modelled as N of these atomic steps in sequence. -/
def allocOne (db : DB) (plan_id country_id carrier_id : Option Nat)
    (c : ActivationCall) (now : Nat) : DB × ActivationSource :=
  match reserve_inventory_item db.inventory plan_id country_id carrier_id now with
  | (inv1, some item) =>
    let item' := (apply_provisioning_to_esim c.esim (result_from_inventory_item item)
      (some item) c.freshCode c.freshIccid now).2
    let inv2 :=
      match item' with
      | some it => inv1.map (fun r => if r.id == it.id then it else r)
      | none => inv1
    ({ db with inventory := inv2 }, .fromInventory item.id)
  | (_, none) =>
    let (dbI, item) :=
      create_inventory_from_provisioning db plan_id country_id carrier_id c.pr now
    let item' := (apply_provisioning_to_esim c.esim c.pr
      (some item) c.freshCode c.freshIccid now).2
    let inv2 :=
      match item' with
      | some it => dbI.inventory.map (fun r => if r.id == it.id then it else r)
      | none => dbI.inventory
    ({ dbI with inventory := inv2 }, .fromFallback item.id)

/-- N racing activations over the same plan/country/carrier filters,
sequentialized into atomic `allocOne` steps (any interleaving of the
skip-locked reservations is equivalent to some such sequence). -/
def allocRun (db : DB) (plan_id country_id carrier_id : Option Nat)
    (calls : List ActivationCall) (now : Nat) : DB × List ActivationSource :=
  match calls with
  | [] => (db, [])
  | c :: rest =>
    let step := allocOne db plan_id country_id carrier_id c now
    let next := allocRun step.1 plan_id country_id carrier_id rest now
    (next.1, step.2 :: next.2)

/-! Concrete stores used to evaluate the theorems on explicit inputs. -/

/-- A store holding one plan and nothing else. -/
def wC1db : DB :=
  ⟨[⟨1, 1250, some 10, some 20⟩], [], [], [], [], [], [], 1, 1, 1, 1, 1, 1⟩

/-- A store holding one `REFUNDED` order and its `SUCCEEDED` payment. -/
def cxC2db : DB :=
  ⟨[], [⟨1, 7, 1, .refunded, "USD", 1250, none, none, none⟩], [],
    [⟨1, 1, "MOCK", .succeeded, "pi_1", none⟩], [], [], [], 2, 1, 2, 1, 1, 1⟩

/-- A store holding one `PAID` order with a pending payment and no invoice
yet. -/
def wC3db : DB :=
  ⟨[], [⟨1, 7, 1, .paid, "USD", 1250, none, none, none⟩], [],
    [⟨1, 1, "MOCK", .requires_action, "pi_1", none⟩], [], [], [], 2, 1, 2, 1, 1, 1⟩

/-- A store holding one `PAID` order whose profile is already `ACTIVE` with
a provisioned timestamp. -/
def wC4db : DB :=
  ⟨[], [⟨1, 7, 1, .paid, "USD", 1250, none, none, none⟩],
    [⟨1, 7, some 1, some 1, none, none, some 3, some "CODE-A", some "89001A",
      some "LPA:1$CODE-A", some "inst", .active, some 5, some "ref", some "meta"⟩],
    [], [], [], [], 2, 2, 1, 1, 1, 1⟩

/-- A store holding one `PAID` order with a `PENDING_ACTIVATION` profile
and an empty inventory pool. -/
def wC5db : DB :=
  ⟨[], [⟨1, 7, 1, .paid, "USD", 1250, none, none, none⟩],
    [⟨1, 7, some 1, some 1, none, none, none, none, none, none, none,
      .pending_activation, none, none, none⟩],
    [], [], [], [], 2, 2, 1, 1, 1, 1⟩

/-- A store whose inventory pool has exactly one `AVAILABLE` item for
plan 1. -/
def wC6db : DB :=
  ⟨[], [], [], [],
    [⟨1, some 1, none, none, some "AC-1", some "89001B", none, none,
      .available, none, none, none, none⟩],
    [], [], 1, 1, 1, 2, 1, 1⟩

/-- A blank pre-registered profile, as racing activations would hold. -/
def wC6esim : EsimProfile :=
  ⟨1, 7, some 1, some 1, none, none, none, none, none, none, none,
    .pending_activation, none, none, none⟩

/-- A fallback provisioning result for the racing activations. -/
def wC6pr : EsimProvisioningResult :=
  ⟨"P-AC", some "882P", none, none, some "order-ref", some "meta"⟩

/-- Two racing activation calls. -/
def wC6calls : List ActivationCall :=
  [⟨wC6esim, wC6pr, "F-1", "f1"⟩, ⟨wC6esim, wC6pr, "F-2", "f2"⟩]

/-- An inventory pool with two `AVAILABLE` plan-1 rows (ids 2 and 5), one
`RESERVED` plan-1 row (id 1), and one `AVAILABLE` plan-2 row (id 3). -/
def wC7rows : List EsimInventory :=
  [⟨2, some 1, some 5, none, some "AC-2", none, none, none, .available,
      none, none, none, none⟩,
    ⟨1, some 1, some 5, none, some "AC-0", none, none, none, .reserved,
      none, none, none, none⟩,
    ⟨5, some 1, none, some 9, some "AC-5", none, none, none, .available,
      none, none, none, none⟩,
    ⟨3, some 2, some 6, none, some "AC-3", none, none, none, .available,
      none, none, none, none⟩]

/-- A store holding one `CREATED` order. -/
def cxC9db : DB :=
  ⟨[], [⟨1, 7, 1, .created, "USD", 1250, none, none, none⟩], [], [], [],
    [], [], 2, 1, 1, 1, 1, 1⟩

/-- A store holding one `PAID` order and its `SUCCEEDED` payment. -/
def wC10db : DB :=
  ⟨[], [⟨1, 7, 1, .paid, "USD", 1250, none, none, none⟩], [],
    [⟨1, 1, "MOCK", .succeeded, "pi_1", none⟩], [], [], [], 2, 1, 2, 1, 1, 1⟩

/-! Shared frame lemmas: the side-effect helpers touch only their own
tables. -/

theorem record_event_orders (db : DB) (t : String) (u o p : Option Nat)
    (a : Option Int) (c : Option String) (now : Nat) :
    (record_event db t u o p a c now).orders = db.orders := rfl

theorem record_event_payments (db : DB) (t : String) (u o p : Option Nat)
    (a : Option Int) (c : Option String) (now : Nat) :
    (record_event db t u o p a c now).payments = db.payments := rfl

theorem record_event_invoices (db : DB) (t : String) (u o p : Option Nat)
    (a : Option Int) (c : Option String) (now : Nat) :
    (record_event db t u o p a c now).invoices = db.invoices := rfl

theorem record_event_inventory (db : DB) (t : String) (u o p : Option Nat)
    (a : Option Int) (c : Option String) (now : Nat) :
    (record_event db t u o p a c now).inventory = db.inventory := rfl

theorem record_event_esims (db : DB) (t : String) (u o p : Option Nat)
    (a : Option Int) (c : Option String) (now : Nat) :
    (record_event db t u o p a c now).esims = db.esims := rfl

theorem generate_invoice_for_order_orders (db : DB) (o : Option Order) (now : Nat) :
    (generate_invoice_for_order db o now).orders = db.orders := by
  cases o with
  | none => rfl
  | some x =>
    simp only [generate_invoice_for_order]
    split
    · rfl
    · split <;> rfl

theorem generate_invoice_for_order_payments (db : DB) (o : Option Order) (now : Nat) :
    (generate_invoice_for_order db o now).payments = db.payments := by
  cases o with
  | none => rfl
  | some x =>
    simp only [generate_invoice_for_order]
    split
    · rfl
    · split <;> rfl

theorem maybe_issue_invoice_orders (db : DB) (o : Option Order)
    (ps : PaymentStatus) (now : Nat) :
    (maybe_issue_invoice db o ps now).orders = db.orders := by
  cases o with
  | none => rfl
  | some x =>
    simp only [maybe_issue_invoice]
    split
    · rfl
    · exact generate_invoice_for_order_orders db (some x) now

theorem maybe_issue_invoice_payments (db : DB) (o : Option Order)
    (ps : PaymentStatus) (now : Nat) :
    (maybe_issue_invoice db o ps now).payments = db.payments := by
  cases o with
  | none => rfl
  | some x =>
    simp only [maybe_issue_invoice]
    split
    · rfl
    · exact generate_invoice_for_order_payments db (some x) now

theorem maybe_issue_invoice_not_succeeded (db : DB) (o : Option Order)
    (ps : PaymentStatus) (now : Nat) (h : ps ≠ .succeeded) :
    maybe_issue_invoice db o ps now = db := by
  cases o with
  | none => rfl
  | some x =>
    simp only [maybe_issue_invoice]
    split
    · rfl
    · next hc => exact absurd (by simpa using hc) (by simpa using h)

theorem record_payment_success_event_orders (db : DB) (o : Option Order)
    (payment : Payment) (now : Nat) :
    (record_payment_success_event db o payment now).orders = db.orders := by
  cases o <;> rfl

theorem record_payment_success_event_payments (db : DB) (o : Option Order)
    (payment : Payment) (now : Nat) :
    (record_payment_success_event db o payment now).payments = db.payments := by
  cases o <;> rfl

theorem record_payment_success_event_invoices (db : DB) (o : Option Order)
    (payment : Payment) (now : Nat) :
    (record_payment_success_event db o payment now).invoices = db.invoices := by
  cases o <;> rfl

/-- C2, counterexample: in a store whose only order is `REFUNDED` (its
payment already `SUCCEEDED`), redelivering a succeeded webhook event flips
the order back to `PAID` instead of leaving it `REFUNDED`. -/
theorem payment_webhook_refunded_flips_to_paid :
    cxC2db.orders.map (fun o => o.status) = [.refunded] ∧
    ((payment_webhook cxC2db (.ok ⟨"x"⟩)
        (fun _ => ⟨"pi_1", "succeeded", 1250, "USD"⟩) 5).1).orders.map
        (fun o => o.status) = [.paid] := by
  exact ⟨by decide, by decide⟩

/-- C8, counterexample: the default `parse_webhook_payload` the mock
provider inherits accepts a decodable body with no signature header at
all — it does not fail closed on a missing signature. -/
theorem default_parse_accepts_missing_signature :
    default_parse_webhook_payload (fun s => some ⟨s⟩) "x" [] = .ok ⟨"x"⟩ :=
  rfl

/-- C9, counterexample: `create_payment` itself mutates the order status —
an intent already `succeeded` at creation flips the `CREATED` order to
`PAID` without any webhook. -/
theorem create_payment_mutates_order_status :
    cxC9db.orders.map (fun o => o.status) = [.created] ∧
    ((create_payment cxC9db 7 1 "MOCK" ⟨"pi_9", "succeeded", 1250, "USD"⟩ 3).1).orders.map
      (fun o => o.status) = [.paid] := by
  exact ⟨by decide, by decide⟩

/-- When the reservation returns no item it also leaves the rows exactly
as they were. -/
theorem reserve_none_of_snd_none {rows : List EsimInventory}
    {p c k : Option Nat} {now : Nat}
    (h : (reserve_inventory_item rows p c k now).2 = none) :
    reserve_inventory_item rows p c k now = (rows, none) := by
  unfold reserve_inventory_item at h ⊢
  cases ho : oldestMatch rows (invMatch p c k) with
  | none => simp [ho]
  | some it => rw [ho] at h; simp at h

/-- C4: activating a paid order whose profile already carries a
provisioned timestamp or is `ASSIGNED`/`ACTIVE` returns the profile's
current data (in particular its stored `activation_code` and `iccid`,
byte-identical on every such call) and leaves the store untouched — the
result does not depend on the provisioning provider or the fresh uuid
draws, so no inventory reservation and no provisioning call happens. -/
theorem activate_esim_idempotent
    (db : DB) (user_id order_id : Nat) (order : Order) (esim : EsimProfile)
    (provision : Except Unit EsimProvisioningResult)
    (freshCode freshIccid : String) (now : Nat)
    (horder : db.orders.find? (fun o => o.id == order_id && o.user_id == user_id)
      = some order)
    (hpaid : order.status = .paid)
    (hesim : db.esims.find? (fun e => e.order_id == some order_id) = some esim)
    (hdone : (esim.provisioned_at).isSome = true ∨
      esim.status = .assigned ∨ esim.status = .active) :
    activate_esim db user_id order_id provision freshCode freshIccid now
      = (db, .ok (serialize_esim esim)) := by
  unfold activate_esim
  rw [horder]
  simp only [hpaid]
  rw [hesim]
  rcases hdone with h | h | h <;> simp [h]

/-- C4, witness: evaluated on a store with one paid order and an `ACTIVE`
profile. -/
theorem activate_esim_idempotent_witness :
    activate_esim wC4db 7 1 (.error ()) "fc" "fi" 9
      = (wC4db, .ok (serialize_esim
          ⟨1, 7, some 1, some 1, none, none, some 3, some "CODE-A",
            some "89001A", some "LPA:1$CODE-A", some "inst", .active, some 5,
            some "ref", some "meta"⟩)) :=
  activate_esim_idempotent wC4db 7 1
    ⟨1, 7, 1, .paid, "USD", 1250, none, none, none⟩
    ⟨1, 7, some 1, some 1, none, none, some 3, some "CODE-A", some "89001A",
      some "LPA:1$CODE-A", some "inst", .active, some 5, some "ref", some "meta"⟩
    (.error ()) "fc" "fi" 9 (by decide) rfl (by decide) (Or.inr (Or.inr rfl))

/-- C5: when no inventory item was reserved (the pool has no available
match) and the fallback provider raises a provisioning error, activation
fails with the 502 provider-integration error and the store is returned
exactly as it was: the profile keeps its `PENDING_ACTIVATION`/`RESERVED`
status and every field, and no inventory row is created or linked. -/
theorem activate_esim_provision_error_no_residue
    (db : DB) (user_id order_id : Nat) (order : Order) (esim : EsimProfile)
    (freshCode freshIccid : String) (now : Nat)
    (horder : db.orders.find? (fun o => o.id == order_id && o.user_id == user_id)
      = some order)
    (hpaid : order.status = .paid)
    (hesim : db.esims.find? (fun e => e.order_id == some order_id) = some esim)
    (hfresh : esim.provisioned_at = none)
    (hready : esim.status = .pending_activation ∨ esim.status = .reserved)
    (hnores : (reserve_inventory_item db.inventory (activationFilters order esim).1
        (activationFilters order esim).2.1 (activationFilters order esim).2.2 now).2
      = none) :
    activate_esim db user_id order_id (.error ()) freshCode freshIccid now
      = (db, .error (.badGateway "Unable to provision eSIM")) := by
  unfold activate_esim
  rw [horder]
  simp only [hpaid]
  rw [hesim]
  rcases hready with h | h <;>
    simp [h, hfresh, reserve_none_of_snd_none hnores]

/-- C5, witness: evaluated on a store with one paid order, a pending
profile, and an empty pool. -/
theorem activate_esim_provision_error_no_residue_witness :
    activate_esim wC5db 7 1 (.error ()) "fc" "fi" 9
      = (wC5db, .error (.badGateway "Unable to provision eSIM")) :=
  activate_esim_provision_error_no_residue wC5db 7 1
    ⟨1, 7, 1, .paid, "USD", 1250, none, none, none⟩
    ⟨1, 7, some 1, some 1, none, none, none, none, none, none, none,
      .pending_activation, none, none, none⟩
    "fc" "fi" 9 (by decide) rfl (by decide) rfl (Or.inl rfl) (by decide)

/-- C2 (amended): the webhook handler applies the mapped payment status to
the matched order unconditionally — a delivery whose normalized status is
`succeeded` sets the order to `PAID` whatever its previous status was,
including `REFUNDED`; no forward-transition check is performed, so the
backward transition REFUNDED → PAID is permitted. -/
theorem payment_webhook_applies_mapped_status_unconditionally
    (db : DB) (payload : WebhookPayload) (processW : WebhookPayload → PaymentIntent)
    (intent : PaymentIntent) (payment : Payment) (order : Order) (now : Nat)
    (hintent : processW payload = intent)
    (hid : (intent.intent_id == "") = false)
    (hfind : db.payments.find? (fun p => p.intent_id == intent.intent_id)
      = some payment)
    (horder : db.orders.find? (fun o => o.id == payment.order_id) = some order)
    (hmap : map_payment_status (some intent.status) = .succeeded) :
    ((payment_webhook db (.ok payload) processW now).1).orders
      = db.orders.map (fun x =>
          if x.id == order.id then { x with status := .paid } else x) := by
  simp only [payment_webhook, hintent, hid, hfind, horder, hmap,
    Bool.false_eq_true, if_false]
  split
  · rw [record_payment_success_event_orders, maybe_issue_invoice_orders]
    simp [update_order_status_from_payment]
  · rw [maybe_issue_invoice_orders]
    simp [update_order_status_from_payment]

/-- C2 (amended), witness: on the refunded-order store, the succeeded
delivery leaves the order `PAID`. -/
theorem payment_webhook_applies_mapped_status_unconditionally_witness :
    ((payment_webhook cxC2db (.ok ⟨"x"⟩)
        (fun _ => ⟨"pi_1", "succeeded", 1250, "USD"⟩) 5).1).orders
      = [⟨1, 7, 1, .paid, "USD", 1250, none, none, none⟩] := by
  have h := payment_webhook_applies_mapped_status_unconditionally cxC2db ⟨"x"⟩
    (fun _ => ⟨"pi_1", "succeeded", 1250, "USD"⟩)
    ⟨"pi_1", "succeeded", 1250, "USD"⟩
    ⟨1, 1, "MOCK", .succeeded, "pi_1", none⟩
    ⟨1, 7, 1, .refunded, "USD", 1250, none, none, none⟩ 5
    rfl (by decide) (by decide) (by decide) (by decide)
  simpa using h

/-- C10: a webhook delivery whose normalized intent status is neither
`succeeded` nor `failed` (missing or unrecognized strings map to
`REQUIRES_ACTION`) sets the matched payment's status to `REQUIRES_ACTION`
— even if it was previously `SUCCEEDED` — and leaves every order's status
(and the whole orders table) unchanged. -/
theorem payment_webhook_unrecognized_status_requires_action
    (db : DB) (payload : WebhookPayload) (processW : WebhookPayload → PaymentIntent)
    (intent : PaymentIntent) (payment : Payment) (now : Nat)
    (hintent : processW payload = intent)
    (hid : (intent.intent_id == "") = false)
    (hfind : db.payments.find? (fun p => p.intent_id == intent.intent_id)
      = some payment)
    (hmap : map_payment_status (some intent.status) = .requires_action) :
    ((payment_webhook db (.ok payload) processW now).1).payments
      = db.payments.map (fun p =>
          if p.id == payment.id then
            { p with status := .requires_action, raw_payload := some payload.raw }
          else p) ∧
    ((payment_webhook db (.ok payload) processW now).1).orders = db.orders := by
  have heta : ∀ x : Order, ({ x with status := x.status } : Order) = x :=
    fun x => rfl
  simp only [payment_webhook, hintent, hid, hfind, hmap, Bool.false_eq_true,
    if_false]
  rw [maybe_issue_invoice_not_succeeded _ _ _ _ (by decide)]
  constructor
  · simp
  · cases horder : db.orders.find? (fun o => o.id == payment.order_id) with
    | none => simp [horder]
    | some o =>
      simp [horder, update_order_status_from_payment, heta]

/-- C10, witness: a delivery with status `"processing"` for a previously
succeeded payment of a paid order. -/
theorem payment_webhook_unrecognized_status_requires_action_witness :
    ((payment_webhook wC10db (.ok ⟨"x"⟩)
        (fun _ => ⟨"pi_1", "processing", 1250, "USD"⟩) 5).1).payments
        = [⟨1, 1, "MOCK", .requires_action, "pi_1", some "x"⟩] ∧
    ((payment_webhook wC10db (.ok ⟨"x"⟩)
        (fun _ => ⟨"pi_1", "processing", 1250, "USD"⟩) 5).1).orders
        = wC10db.orders := by
  have h := payment_webhook_unrecognized_status_requires_action wC10db ⟨"x"⟩
    (fun _ => ⟨"pi_1", "processing", 1250, "USD"⟩)
    ⟨"pi_1", "processing", 1250, "USD"⟩
    ⟨1, 1, "MOCK", .succeeded, "pi_1", none⟩ 5
    rfl (by decide) (by decide) (by decide)
  exact ⟨by rw [h.1]; decide, h.2⟩

/-- Frame: the conditional success-analytics step never touches invoices. -/
theorem ite_record_payment_success_event_invoices (c : Prop) [Decidable c]
    (db : DB) (o : Option Order) (pm : Payment) (now : Nat) :
    (if c then record_payment_success_event db o pm now else db).invoices
      = db.invoices := by
  split
  · rw [record_payment_success_event_invoices]
  · rfl

/-- Frame: the conditional success-analytics step never touches orders. -/
theorem ite_record_payment_success_event_orders (c : Prop) [Decidable c]
    (db : DB) (o : Option Order) (pm : Payment) (now : Nat) :
    (if c then record_payment_success_event db o pm now else db).orders
      = db.orders := by
  split
  · rw [record_payment_success_event_orders]
  · rfl

/-- C3: delivering (or redelivering) a succeeded webhook event for an
order that has at most one invoice leaves it with exactly one invoice —
the existing invoice is found by order id and kept, a missing one is
created once — and never changes any order's `amount_minor_units` or
`currency`.  Since a fresh order has zero invoices and this is the only
invoice-creating path of the core, redelivering the same event any number
of times keeps the count at one. -/
theorem payment_webhook_invoice_exactly_once
    (db : DB) (payload : WebhookPayload) (processW : WebhookPayload → PaymentIntent)
    (intent : PaymentIntent) (payment : Payment) (order : Order) (now : Nat)
    (hintent : processW payload = intent)
    (hid : (intent.intent_id == "") = false)
    (hfind : db.payments.find? (fun p => p.intent_id == intent.intent_id)
      = some payment)
    (horder : db.orders.find? (fun o => o.id == payment.order_id) = some order)
    (hmap : map_payment_status (some intent.status) = .succeeded)
    (hoid : (order.id == 0) = false)
    (hcount : (db.invoices.filter (fun i => i.order_id == order.id)).length ≤ 1) :
    (((payment_webhook db (.ok payload) processW now).1).invoices.filter
        (fun i => i.order_id == order.id)).length = 1 ∧
    ((payment_webhook db (.ok payload) processW now).1).orders.map
        (fun o => (o.id, o.amount_minor_units, o.currency))
      = db.orders.map (fun o => (o.id, o.amount_minor_units, o.currency)) := by
  simp only [payment_webhook, hintent, hid, hfind, horder, hmap,
    Bool.false_eq_true, if_false, update_order_status_from_payment]
  constructor
  · rw [ite_record_payment_success_event_invoices]
    have hoid' : ¬(order.id = 0) := by simpa using hoid
    simp only [maybe_issue_invoice, bne_self_eq_false, Bool.false_eq_true,
      if_false, generate_invoice_for_order, hoid', if_neg hoid']
    cases hfilt : db.invoices.filter (fun i => i.order_id == order.id) with
    | nil =>
      simp [hfilt, List.filter_append, hoid']
    | cons a as =>
      cases as with
      | nil => simp [hfilt, hoid']
      | cons b bs =>
        rw [hfilt] at hcount
        simp at hcount
  · rw [ite_record_payment_success_event_orders, maybe_issue_invoice_orders]
    simp only [List.map_map]
    refine List.map_congr_left (fun x _ => ?_)
    simp only [Function.comp]
    split <;> rfl

/-- C3, witness: a succeeded delivery on a paid order with no invoice yet
yields exactly one invoice and unchanged amount/currency. -/
theorem payment_webhook_invoice_exactly_once_witness :
    (((payment_webhook wC3db (.ok ⟨"x"⟩)
        (fun _ => ⟨"pi_1", "succeeded", 1250, "USD"⟩) 5).1).invoices.filter
        (fun i => i.order_id == 1)).length = 1 ∧
    ((payment_webhook wC3db (.ok ⟨"x"⟩)
        (fun _ => ⟨"pi_1", "succeeded", 1250, "USD"⟩) 5).1).orders.map
        (fun o => (o.id, o.amount_minor_units, o.currency))
      = wC3db.orders.map (fun o => (o.id, o.amount_minor_units, o.currency)) := by
  have h := payment_webhook_invoice_exactly_once wC3db ⟨"x"⟩
    (fun _ => ⟨"pi_1", "succeeded", 1250, "USD"⟩)
    ⟨"pi_1", "succeeded", 1250, "USD"⟩
    ⟨1, 1, "MOCK", .requires_action, "pi_1", none⟩
    ⟨1, 7, 1, .paid, "USD", 1250, none, none, none⟩ 5
    rfl (by decide) (by decide) (by decide) (by decide) (by decide) (by decide)
  exact h

/-- C8 (amended): the Stripe provider's `parse_webhook_payload` verifies
an authenticity signature and fails closed — with the secret configured, a
request carrying no `stripe-signature` header (any of the three casings)
is rejected with a validation error, and a failed `construct_event`
verification is rejected with a validation error — and a parse failure
reaches `payment_webhook` before any state mutation: the store is
returned unchanged with a 400.  The default parser the mock provider
inherits performs no signature check (see the counterexample) and fails
only on an undecodable body. -/
theorem stripe_parse_fails_closed :
    (∀ (secret body : String) (headers : List (String × String))
        (constructEvent : String → String → String → Option WebhookPayload),
      (secret == "") = false →
      headerGet headers "stripe-signature" = none →
      headerGet headers "Stripe-Signature" = none →
      headerGet headers "STRIPE-SIGNATURE" = none →
      stripe_parse_webhook_payload secret constructEvent body headers
        = .error (.validation .missingSignature)) ∧
    (∀ (secret body sig : String) (headers : List (String × String))
        (constructEvent : String → String → String → Option WebhookPayload),
      (secret == "") = false →
      headerGet headers "stripe-signature" = some sig →
      constructEvent body sig secret = none →
      stripe_parse_webhook_payload secret constructEvent body headers
        = .error (.validation .invalidSignature)) ∧
    (∀ (db : DB) (e : WebhookValidationError)
        (processW : WebhookPayload → PaymentIntent) (now : Nat),
      payment_webhook db (.error e) processW now
        = (db, .error (.badRequest "webhook validation failed"))) := by
  refine ⟨?_, ?_, ?_⟩
  · intro secret body headers constructEvent hsecret h1 h2 h3
    simp [stripe_parse_webhook_payload, hsecret, h1, h2, h3, Option.orElse]
  · intro secret body sig headers constructEvent hsecret h1 hfail
    simp [stripe_parse_webhook_payload, hsecret, h1, hfail, Option.orElse]
  · intro db e processW now
    rfl

/-- C8 (amended), witness: concrete missing-header and bad-signature
requests are rejected, and a parse failure leaves an empty store
untouched. -/
theorem stripe_parse_fails_closed_witness :
    stripe_parse_webhook_payload "whsec" (fun _ _ _ => none) "x" []
      = .error (.validation .missingSignature) ∧
    stripe_parse_webhook_payload "whsec" (fun _ _ _ => none) "x"
        [("stripe-signature", "bad")]
      = .error (.validation .invalidSignature) ∧
    payment_webhook (⟨[], [], [], [], [], [], [], 1, 1, 1, 1, 1, 1⟩ : DB)
        (.error .missingSignature) (fun _ => ⟨"", "", 0, ""⟩) 0
      = (⟨[], [], [], [], [], [], [], 1, 1, 1, 1, 1, 1⟩,
          .error (.badRequest "webhook validation failed")) :=
  ⟨stripe_parse_fails_closed.1 "whsec" "x" [] (fun _ _ _ => none)
      (by decide) rfl rfl rfl,
    stripe_parse_fails_closed.2.1 "whsec" "x" "bad" [("stripe-signature", "bad")]
      (fun _ _ _ => none) (by decide) (by decide) rfl,
    stripe_parse_fails_closed.2.2 _ .missingSignature _ 0⟩

/-- C9 (amended): no operation of the core ever deletes an order row, and
outside webhook reconciliation the only order-status write is
`create_payment` applying the mapped status of the intent it just created:
whenever that intent's normalized status is `requires_action` — as with
the mock provider, which always returns `requires_action` at creation —
`create_payment` leaves the orders table unchanged, and `create_order` and
`activate_esim` never change any existing order row. -/
theorem order_status_mutation_surface :
    (∀ (db : DB) (u oid : Nat) (provider : String) (intent : PaymentIntent)
        (now : Nat),
      map_payment_status (some intent.status) = .requires_action →
      ((create_payment db u oid provider intent now).1).orders = db.orders) ∧
    (∀ (db : DB) (u oid : Nat) (provider : String) (intent : PaymentIntent)
        (now : Nat),
      ((create_payment db u oid provider intent now).1).orders.map (fun o => o.id)
        = db.orders.map (fun o => o.id)) ∧
    (∀ (db : DB) (u p : Nat) (cur : String) (key : Option String) (now : Nat),
      ∃ tail, ((create_order db u p cur key now).1).orders = db.orders ++ tail) ∧
    (∀ (db : DB) (u oid : Nat) (prov : Except Unit EsimProvisioningResult)
        (fc fi : String) (now : Nat),
      ((activate_esim db u oid prov fc fi now).1).orders = db.orders) ∧
    (∀ (db : DB) (pr : Except WebhookValidationError WebhookPayload)
        (pw : WebhookPayload → PaymentIntent) (now : Nat),
      ((payment_webhook db pr pw now).1).orders.map (fun o => o.id)
        = db.orders.map (fun o => o.id)) := by
  have heta : ∀ x : Order, ({ x with status := x.status } : Order) = x :=
    fun x => rfl
  refine ⟨?_, ?_, ?_, ?_, ?_⟩
  · intro db u oid provider intent now hmap
    unfold create_payment
    cases ho : db.orders.find? (fun o => o.id == oid && o.user_id == u) with
    | none => rfl
    | some order =>
      simp only [ho, hmap]
      rw [ite_record_payment_success_event_orders, maybe_issue_invoice_orders]
      simp [update_order_status_from_payment, heta]
  · intro db u oid provider intent now
    unfold create_payment
    cases ho : db.orders.find? (fun o => o.id == oid && o.user_id == u) with
    | none => rfl
    | some order =>
      simp only [ho]
      rw [ite_record_payment_success_event_orders, maybe_issue_invoice_orders]
      simp only [List.map_map]
      refine List.map_congr_left (fun x _ => ?_)
      simp only [Function.comp]
      split <;> rfl
  · intro db u p cur key now
    unfold create_order
    cases hnk : (if pyTruthyStr key then key.map (normalizedKey u) else none) with
    | none =>
      cases hp : db.plans.find? (fun q => q.id == p) with
      | none => exact ⟨[], by simp [hnk, hp]⟩
      | some plan =>
        exact ⟨[⟨db.nextOrderId, u, p, .created, strOr cur "USD",
          plan.price_minor_units, none, plan.country_id, plan.carrier_id⟩],
          by simp [hnk, hp, record_event_orders]⟩
    | some nk =>
      cases he : db.orders.find? (fun o => o.idempotency_key == some nk) with
      | none =>
        cases hp : db.plans.find? (fun q => q.id == p) with
        | none => exact ⟨[], by simp [hnk, he, hp]⟩
        | some plan =>
          exact ⟨[⟨db.nextOrderId, u, p, .created, strOr cur "USD",
            plan.price_minor_units, some nk, plan.country_id, plan.carrier_id⟩],
            by simp [hnk, he, hp, record_event_orders]⟩
      | some e => exact ⟨[], by simp [hnk, he]⟩
  · intro db u oid prov fc fi now
    unfold activate_esim
    split
    · rfl
    · split
      · rfl
      · split
        · rfl
        · split
          · rfl
          · split
            · rfl
            · split
              · rfl
              · split
                · rfl
                · rfl
  · intro db pr pw now
    unfold payment_webhook
    cases pr with
    | error e => rfl
    | ok payload =>
      simp only []
      split
      · rfl
      · cases hp : db.payments.find? (fun p => p.intent_id == (pw payload).intent_id) with
        | none => rfl
        | some payment =>
          simp only [hp]
          rw [ite_record_payment_success_event_orders, maybe_issue_invoice_orders]
          cases ho : db.orders.find? (fun o => o.id == payment.order_id) with
          | none => rfl
          | some o =>
            simp only [List.map_map]
            refine List.map_congr_left (fun x _ => ?_)
            simp only [Function.comp]
            split <;> rfl

/-- C9 (amended), witness: with a `requires_action` intent the orders
table is untouched, and order creation only appends. -/
theorem order_status_mutation_surface_witness :
    ((create_payment cxC9db 7 1 "MOCK" ⟨"pi_2", "requires_action", 1250, "USD"⟩ 4).1).orders
      = cxC9db.orders ∧
    (∃ tail, ((create_order cxC9db 7 1 "USD" none 4).1).orders
      = cxC9db.orders ++ tail) :=
  ⟨order_status_mutation_surface.1 cxC9db 7 1 "MOCK"
      ⟨"pi_2", "requires_action", 1250, "USD"⟩ 4 (by decide),
    order_status_mutation_surface.2.2.1 cxC9db 7 1 "USD" none 4⟩

theorem oldestMatch_mem {rows : List EsimInventory} {f : EsimInventory → Bool}
    {it : EsimInventory} (h : oldestMatch rows f = some it) :
    it ∈ rows.filter f :=
  List.argmin_mem h

theorem oldestMatch_min {rows : List EsimInventory} {f : EsimInventory → Bool}
    {it : EsimInventory} (h : oldestMatch rows f = some it) :
    ∀ r ∈ rows.filter f, it.id ≤ r.id :=
  fun _ hr => List.le_of_mem_argmin hr h

theorem oldestMatch_eq_none {rows : List EsimInventory} {f : EsimInventory → Bool} :
    oldestMatch rows f = none ↔ rows.filter f = [] :=
  List.argmin_eq_none

/-- C7: the reservation query.  (i) Filter precedence: with a truthy
plan id only `AVAILABLE` rows of that plan are considered; with no truthy
plan id but a truthy country id only `AVAILABLE` rows of that country;
else with a truthy carrier id only `AVAILABLE` rows of that carrier.
(ii) With no matching row, nothing is returned and no row is mutated.
(iii) With a matching row, an item is returned.  (iv) The returned item is
the oldest (smallest-id) matching row flipped to `RESERVED` with
`reserved_at` set to the reservation time, and the rows are rewritten only
at that row's id. -/
theorem reserve_inventory_item_spec
    (rows : List EsimInventory) (pid cid kid : Option Nat) (now : Nat) :
    (pyTruthyNat pid = true →
      ∀ r, invMatch pid cid kid r = (r.status == .available && r.plan_id == pid)) ∧
    (pyTruthyNat pid = false → pyTruthyNat cid = true →
      ∀ r, invMatch pid cid kid r = (r.status == .available && r.country_id == cid)) ∧
    (pyTruthyNat pid = false → pyTruthyNat cid = false → pyTruthyNat kid = true →
      ∀ r, invMatch pid cid kid r = (r.status == .available && r.carrier_id == kid)) ∧
    ((∀ r ∈ rows, invMatch pid cid kid r = false) →
      reserve_inventory_item rows pid cid kid now = (rows, none)) ∧
    ((∃ r ∈ rows, invMatch pid cid kid r = true) →
      ((reserve_inventory_item rows pid cid kid now).2).isSome = true) ∧
    (∀ item, (reserve_inventory_item rows pid cid kid now).2 = some item →
      ∃ orig, orig ∈ rows ∧ invMatch pid cid kid orig = true ∧
        item = { orig with status := .reserved, reserved_at := some now } ∧
        (∀ r ∈ rows, invMatch pid cid kid r = true → orig.id ≤ r.id) ∧
        (reserve_inventory_item rows pid cid kid now).1
          = rows.map (fun r => if r.id == orig.id then item else r)) := by
  refine ⟨?_, ?_, ?_, ?_, ?_, ?_⟩
  · intro h r
    simp [invMatch, h]
  · intro h1 h2
    intro r
    simp [invMatch, h1, h2]
  · intro h1 h2 h3
    intro r
    simp [invMatch, h1, h2, h3]
  · intro hnone
    have hfilt : rows.filter (invMatch pid cid kid) = [] := by
      simp only [List.filter_eq_nil_iff]
      intro r hr
      simp [hnone r hr]
    unfold reserve_inventory_item
    rw [oldestMatch_eq_none.2 hfilt]
  · intro hx
    rcases hx with ⟨r, hr, hm⟩
    have hfilt : rows.filter (invMatch pid cid kid) ≠ [] := by
      intro hnil
      have : r ∈ rows.filter (invMatch pid cid kid) := List.mem_filter.2 ⟨hr, hm⟩
      rw [hnil] at this
      exact absurd this (List.not_mem_nil r)
    unfold reserve_inventory_item
    cases ho : oldestMatch rows (invMatch pid cid kid) with
    | none => exact absurd (oldestMatch_eq_none.1 ho) hfilt
    | some it => simp
  · intro item hitem
    unfold reserve_inventory_item at hitem ⊢
    cases ho : oldestMatch rows (invMatch pid cid kid) with
    | none => rw [ho] at hitem; simp at hitem
    | some orig =>
      rw [ho] at hitem
      simp only [Option.some.injEq] at hitem
      have hmem := oldestMatch_mem ho
      refine ⟨orig, (List.mem_filter.1 hmem).1, (List.mem_filter.1 hmem).2,
        hitem.symm, ?_, ?_⟩
      · intro r hr hm
        exact oldestMatch_min ho r (List.mem_filter.2 ⟨hr, hm⟩)
      · rw [← hitem]

/-- C7, witness: on a pool whose `AVAILABLE` plan-1 rows have ids 2 and 5,
some row is reserved, and on an empty pool nothing happens. -/
theorem reserve_inventory_item_spec_witness :
    ((reserve_inventory_item wC7rows (some 1) none none 6).2).isSome = true ∧
    reserve_inventory_item ([] : List EsimInventory) (some 1) none none 6
      = ([], none) :=
  ⟨(reserve_inventory_item_spec wC7rows (some 1) none none 6).2.2.2.2.1
      ⟨⟨2, some 1, some 5, none, some "AC-2", none, none, none, .available,
          none, none, none, none⟩, by decide, by decide⟩,
    (reserve_inventory_item_spec ([] : List EsimInventory) (some 1) none none 6).2.2.2.1
      (fun r hr => absurd hr (List.not_mem_nil r))⟩

/-- C1: with the same (truthy) idempotency key, a second `create_order`
call made after the first committed returns the same response — in
particular the same order id — and performs no writes at all (the store is
returned unchanged, so no second Order row, no second EsimProfile row and
no other side effects).  When no order for the normalized (user, key) pair
existed beforehand, the first call appends exactly one `CREATED` order and
exactly one linked `PENDING_ACTIVATION` profile. -/
theorem create_order_idempotent
    (db : DB) (user_id plan_id : Nat) (cur key : String) (now1 now2 : Nat)
    (hkey : (key == "") = false)
    (resp1 : OrderResponse)
    (h1 : (create_order db user_id plan_id cur (some key) now1).2 = .ok resp1) :
    (create_order (create_order db user_id plan_id cur (some key) now1).1
        user_id plan_id cur (some key) now2).2 = .ok resp1 ∧
    (create_order (create_order db user_id plan_id cur (some key) now1).1
        user_id plan_id cur (some key) now2).1
      = (create_order db user_id plan_id cur (some key) now1).1 ∧
    (db.orders.find?
        (fun o => o.idempotency_key == some (normalizedKey user_id key)) = none →
      ∃ ord esim,
        ((create_order db user_id plan_id cur (some key) now1).1).orders
          = db.orders ++ [ord] ∧
        ((create_order db user_id plan_id cur (some key) now1).1).esims
          = db.esims ++ [esim] ∧
        ord.status = .created ∧ esim.status = .pending_activation ∧
        esim.order_id = some ord.id ∧ resp1.id = ord.id) := by
  have htruthy : pyTruthyStr (some key) = true := by
    simp [pyTruthyStr, bne, hkey]
  cases he : db.orders.find?
      (fun o => o.idempotency_key == some (normalizedKey user_id key)) with
  | some e =>
    have hcall : ∀ n, create_order db user_id plan_id cur (some key) n
        = (db, .ok (serialize_order e)) := by
      intro n
      unfold create_order
      simp [htruthy, he]
    rw [hcall now1] at h1
    simp only [Except.ok.injEq] at h1
    refine ⟨?_, ?_, ?_⟩
    · rw [hcall now1]
      simp only
      rw [hcall now2, h1]
    · rw [hcall now1]
      simp only
      rw [hcall now2]
    · intro hnone
      exact absurd hnone (by simp)
  | none =>
    cases hp : db.plans.find? (fun q => q.id == plan_id) with
    | none =>
      exfalso
      unfold create_order at h1
      simp [htruthy, he, hp] at h1
    | some plan =>
      have hfst : create_order db user_id plan_id cur (some key) now1
          = (record_event
              { db with
                  orders := db.orders ++
                    [⟨db.nextOrderId, user_id, plan_id, .created, strOr cur "USD",
                      plan.price_minor_units, some (normalizedKey user_id key),
                      plan.country_id, plan.carrier_id⟩]
                  esims := db.esims ++
                    [⟨db.nextEsimId, user_id, some db.nextOrderId, some plan_id,
                      plan.country_id, plan.carrier_id, none, none, none, none,
                      none, .pending_activation, none, none, none⟩]
                  nextOrderId := db.nextOrderId + 1
                  nextEsimId := db.nextEsimId + 1 }
              "checkout_started" (some user_id) (some db.nextOrderId)
              (some plan_id) (some plan.price_minor_units)
              (some (strOr cur "USD")) now1,
            .ok (serialize_order
              ⟨db.nextOrderId, user_id, plan_id, .created, strOr cur "USD",
                plan.price_minor_units, some (normalizedKey user_id key),
                plan.country_id, plan.carrier_id⟩)) := by
        unfold create_order
        simp [htruthy, he, hp]
      rw [hfst] at h1
      simp only [Except.ok.injEq] at h1
      generalize hS : (create_order db user_id plan_id cur (some key) now1).1 = S
      have hSorders : S.orders = db.orders ++
          [⟨db.nextOrderId, user_id, plan_id, .created, strOr cur "USD",
            plan.price_minor_units, some (normalizedKey user_id key),
            plan.country_id, plan.carrier_id⟩] := by
        rw [← hS, hfst]
        simp [record_event_orders]
      have hSesims : S.esims = db.esims ++
          [⟨db.nextEsimId, user_id, some db.nextOrderId, some plan_id,
            plan.country_id, plan.carrier_id, none, none, none, none,
            none, .pending_activation, none, none, none⟩] := by
        rw [← hS, hfst]
        simp [record_event_esims]
      have hfind2 : S.orders.find?
          (fun o => o.idempotency_key == some (normalizedKey user_id key))
          = some ⟨db.nextOrderId, user_id, plan_id, .created, strOr cur "USD",
              plan.price_minor_units, some (normalizedKey user_id key),
              plan.country_id, plan.carrier_id⟩ := by
        rw [hSorders, List.find?_append, he]
        simp
      have hsnd : create_order S user_id plan_id cur (some key) now2
          = (S, .ok (serialize_order
              ⟨db.nextOrderId, user_id, plan_id, .created, strOr cur "USD",
                plan.price_minor_units, some (normalizedKey user_id key),
                plan.country_id, plan.carrier_id⟩)) := by
        unfold create_order
        simp [htruthy, hfind2]
      refine ⟨?_, ?_, ?_⟩
      · rw [hsnd]
        simp only
        rw [h1]
      · rw [hsnd]
      · intro _
        exact ⟨⟨db.nextOrderId, user_id, plan_id, .created, strOr cur "USD",
            plan.price_minor_units, some (normalizedKey user_id key),
            plan.country_id, plan.carrier_id⟩,
          ⟨db.nextEsimId, user_id, some db.nextOrderId, some plan_id,
            plan.country_id, plan.carrier_id, none, none, none, none,
            none, .pending_activation, none, none, none⟩,
          hSorders, hSesims, rfl, rfl, rfl, by rw [← h1]; rfl⟩

/-- C1, witness: creating the same order twice with key `"abc"` on a
one-plan store. -/
theorem create_order_idempotent_witness :
    (create_order (create_order wC1db 7 1 "USD" (some "abc") 3).1
        7 1 "USD" (some "abc") 4).2 = .ok ⟨1, .created, "USD", 1250⟩ ∧
    (create_order (create_order wC1db 7 1 "USD" (some "abc") 3).1
        7 1 "USD" (some "abc") 4).1
      = (create_order wC1db 7 1 "USD" (some "abc") 3).1 := by
  have h := create_order_idempotent wC1db 7 1 "USD" "abc" 3 4 (by decide)
    ⟨1, .created, "USD", 1250⟩ rfl
  exact ⟨h.1, h.2.1⟩

/-! Helper lemmas for the concurrency analysis of inventory allocation:
rewriting one row of the pool by id, and how it affects the count of
available matching rows. -/

theorem ids_map_replace {l : List EsimInventory} {i : Nat} {new : EsimInventory}
    (hid : new.id = i) :
    ((l.map (fun r => if r.id == i then new else r)).map (fun r => r.id))
      = l.map (fun r => r.id) := by
  simp only [List.map_map]
  refine List.map_congr_left (fun r _ => ?_)
  simp only [Function.comp]
  split
  · next h => rw [hid, eq_of_beq h]
  · rfl

theorem countP_map_replace_of_all_neg {l : List EsimInventory} {i : Nat}
    {new : EsimInventory} {p : EsimInventory → Bool}
    (hall : ∀ r ∈ l, r.id = i → p r = false) (hnew : p new = false) :
    (l.map (fun r => if r.id == i then new else r)).countP p = l.countP p := by
  induction l with
  | nil => rfl
  | cons a t ih =>
    simp only [List.map_cons, List.countP_cons]
    rw [ih (fun r hr => hall r (List.mem_cons_of_mem a hr))]
    congr 1
    split
    · next h =>
      rw [hnew, hall a (List.mem_cons_self a t) (eq_of_beq h)]
    · rfl

theorem countP_map_replace_of_pos {l : List EsimInventory} {orig new : EsimInventory}
    {p : EsimInventory → Bool}
    (hnodup : (l.map (fun r => r.id)).Nodup)
    (hmem : orig ∈ l) (hporig : p orig = true) (hpnew : p new = false) :
    (l.map (fun r => if r.id == orig.id then new else r)).countP p
      = l.countP p - 1 := by
  induction l with
  | nil => exact absurd hmem (List.not_mem_nil orig)
  | cons a t ih =>
    simp only [List.map_cons, List.map_cons] at hnodup ⊢
    have hnd := List.nodup_cons.1 hnodup
    rcases List.mem_cons.1 hmem with rfl | hmemt
    · -- head is the replaced row
      have hrepl : t.map (fun r => if r.id == orig.id then new else r) = t := by
        conv_rhs => rw [← List.map_id t]
        refine List.map_congr_left (fun r hr => ?_)
        have hne : r.id ≠ orig.id := by
          intro hcontra
          exact hnd.1 (hcontra ▸ List.mem_map_of_mem (fun x => x.id) hr)
        simp [hne]
      simp only [List.countP_cons, beq_self_eq_true, if_true, hrepl, hporig,
        hpnew]
      simp
    · -- the replaced row is in the tail
      have hane : a.id ≠ orig.id := by
        intro hcontra
        exact hnd.1 (by
          rw [hcontra]
          exact List.mem_map_of_mem (fun x => x.id) hmemt)
      have hcond : ¬((a.id == orig.id) = true) := by simp [hane]
      have hpos : 0 < t.countP p :=
        List.countP_pos_iff.2 ⟨orig, hmemt, hporig⟩
      have hrw := ih hnd.2 hmemt
      rw [if_neg hcond, List.countP_cons, List.countP_cons, hrw]
      split <;> omega

theorem mem_of_mem_map_replace_of_pos {l : List EsimInventory} {i : Nat}
    {new r' : EsimInventory} {p : EsimInventory → Bool}
    (hmem : r' ∈ l.map (fun r => if r.id == i then new else r))
    (hp : p r' = true) (hnew : p new = false) : r' ∈ l := by
  rcases List.mem_map.1 hmem with ⟨r, hr, hrr⟩
  by_cases h : (r.id == i) = true
  · rw [if_pos h] at hrr
    rw [hrr] at hnew
    rw [hp] at hnew
    cases hnew
  · rw [if_neg h] at hrr
    rw [← hrr]
    exact hr

theorem reserve_eq_of_countP_zero {rows : List EsimInventory}
    {pid cid kid : Option Nat} {now : Nat}
    (h : rows.countP (invMatch pid cid kid) = 0) :
    reserve_inventory_item rows pid cid kid now = (rows, none) := by
  have hfilt : rows.filter (invMatch pid cid kid) = [] := by
    rw [← List.length_eq_zero, ← List.countP_eq_length_filter]
    exact h
  unfold reserve_inventory_item
  rw [oldestMatch_eq_none.2 hfilt]

theorem reserve_some_of_countP_ne_zero {rows : List EsimInventory}
    {pid cid kid : Option Nat} (now : Nat)
    (h : rows.countP (invMatch pid cid kid) ≠ 0) :
    ∃ rows' item, reserve_inventory_item rows pid cid kid now
      = (rows', some item) := by
  unfold reserve_inventory_item
  cases ho : oldestMatch rows (invMatch pid cid kid) with
  | none =>
    exfalso
    apply h
    rw [List.countP_eq_length_filter, oldestMatch_eq_none.1 ho]
    rfl
  | some it => exact ⟨_, _, rfl⟩

theorem reserve_some_spec {rows rows' : List EsimInventory}
    {pid cid kid : Option Nat} {now : Nat} {item : EsimInventory}
    (h : reserve_inventory_item rows pid cid kid now = (rows', some item)) :
    ∃ orig, orig ∈ rows ∧ invMatch pid cid kid orig = true ∧
      item = { orig with status := .reserved, reserved_at := some now } ∧
      rows' = rows.map (fun r => if r.id == orig.id then item else r) := by
  unfold reserve_inventory_item at h
  cases ho : oldestMatch rows (invMatch pid cid kid) with
  | none => rw [ho] at h; simp at h
  | some orig =>
    rw [ho] at h
    simp only [Prod.mk.injEq, Option.some.injEq] at h
    have hmem := oldestMatch_mem ho
    refine ⟨orig, (List.mem_filter.1 hmem).1, (List.mem_filter.1 hmem).2,
      h.2.symm, ?_⟩
    rw [← h.2]
    exact h.1.symm

theorem apply_provisioning_snd (esim : EsimProfile)
    (pr : EsimProvisioningResult) (it : EsimInventory) (fc fi : String)
    (now : Nat) :
    ∃ it2, (apply_provisioning_to_esim esim pr (some it) fc fi now).2 = some it2 ∧
      it2.id = it.id ∧ it2.status = .assigned ∧
      (∀ pid cid kid, invMatch pid cid kid it2 = false) := by
  refine ⟨_, rfl, rfl, rfl, ?_⟩
  intro pid cid kid
  simp [invMatch]

/-- One allocation step when the pool still has an available match: the
call is served from inventory, the count of available matches drops by
one, the pool's ids and the id counter are untouched, the served row is no
longer a match, and no row becomes a match that was not one before. -/
theorem allocOne_hit (db : DB) (pid cid kid : Option Nat)
    (c : ActivationCall) (now : Nat)
    (hnodup : (db.inventory.map (fun r => r.id)).Nodup)
    (hbound : ∀ r ∈ db.inventory, r.id < db.nextInventoryId)
    (hpos : db.inventory.countP (invMatch pid cid kid) ≠ 0) :
    ∃ servedId db',
      allocOne db pid cid kid c now = (db', .fromInventory servedId) ∧
      db'.inventory.countP (invMatch pid cid kid)
        = db.inventory.countP (invMatch pid cid kid) - 1 ∧
      db'.inventory.map (fun r => r.id) = db.inventory.map (fun r => r.id) ∧
      db'.nextInventoryId = db.nextInventoryId ∧
      servedId < db.nextInventoryId ∧
      (∃ r ∈ db.inventory, r.id = servedId ∧ invMatch pid cid kid r = true) ∧
      (∃ r ∈ db'.inventory, r.id = servedId ∧ invMatch pid cid kid r = false) ∧
      (∀ r' ∈ db'.inventory, invMatch pid cid kid r' = true →
        r' ∈ db.inventory) := by
  obtain ⟨rows', item, hres⟩ := reserve_some_of_countP_ne_zero now hpos
  obtain ⟨orig, homem, hom, hitem, hrows'⟩ := reserve_some_spec hres
  obtain ⟨it2, happly, hid2, hstat2, hmatch2⟩ :=
    apply_provisioning_snd c.esim (result_from_inventory_item item) item
      c.freshCode c.freshIccid now
  have hitemid : item.id = orig.id := by rw [hitem]
  have hpitem : invMatch pid cid kid item = false := by
    rw [hitem]; simp [invMatch]
  have hitem_mem : item ∈ rows' := by
    rw [hrows']
    exact List.mem_map.2 ⟨orig, homem, by simp⟩
  refine ⟨item.id,
    { db with inventory := rows'.map (fun r => if r.id == it2.id then it2 else r) },
    ?_, ?_, ?_, ?_, ?_, ?_, ?_, ?_⟩
  · unfold allocOne
    simp only [hres, happly]
  · -- available-match count drops by exactly one
    show (rows'.map (fun r => if r.id == it2.id then it2 else r)).countP
        (invMatch pid cid kid)
      = db.inventory.countP (invMatch pid cid kid) - 1
    have hstep1 : rows'.countP (invMatch pid cid kid)
        = db.inventory.countP (invMatch pid cid kid) - 1 := by
      rw [hrows']
      exact countP_map_replace_of_pos hnodup homem hom hpitem
    have hall : ∀ r ∈ rows', r.id = it2.id → invMatch pid cid kid r = false := by
      intro r hr hrid
      rw [hrows'] at hr
      rcases List.mem_map.1 hr with ⟨r0, hr0, hr0r⟩
      by_cases hcase : (r0.id == orig.id) = true
      · rw [if_pos hcase] at hr0r
        rw [← hr0r]
        exact hpitem
      · rw [if_neg hcase] at hr0r
        exfalso
        apply hcase
        rw [hr0r, hrid, hid2, hitemid]
        exact beq_self_eq_true orig.id
    rw [countP_map_replace_of_all_neg hall (hmatch2 pid cid kid)]
    exact hstep1
  · show ((rows'.map (fun r => if r.id == it2.id then it2 else r)).map
        (fun r => r.id)) = db.inventory.map (fun r => r.id)
    rw [ids_map_replace rfl, hrows', ids_map_replace hitemid]
  · rfl
  · rw [hitemid]
    exact hbound orig homem
  · exact ⟨orig, homem, hitemid.symm, hom⟩
  · refine ⟨it2, ?_, by rw [hid2], hmatch2 pid cid kid⟩
    show it2 ∈ rows'.map (fun r => if r.id == it2.id then it2 else r)
    refine List.mem_map.2 ⟨item, hitem_mem, ?_⟩
    rw [hid2]
    simp
  · intro r' hr' hp'
    have h1 : r' ∈ rows' :=
      mem_of_mem_map_replace_of_pos hr' hp' (hmatch2 pid cid kid)
    rw [hrows'] at h1
    exact mem_of_mem_map_replace_of_pos h1 hp' hpitem

/-- One allocation step when the pool has no available match: the call is
served from the fallback provider, one fresh `ASSIGNED` row with the next
id is materialized, the count of available matches stays zero, and no row
becomes a match that was not one before. -/
theorem allocOne_miss (db : DB) (pid cid kid : Option Nat)
    (c : ActivationCall) (now : Nat)
    (hbound : ∀ r ∈ db.inventory, r.id < db.nextInventoryId)
    (hzero : db.inventory.countP (invMatch pid cid kid) = 0) :
    ∃ db',
      allocOne db pid cid kid c now = (db', .fromFallback db.nextInventoryId) ∧
      db'.inventory.countP (invMatch pid cid kid) = 0 ∧
      db'.inventory.map (fun r => r.id)
        = db.inventory.map (fun r => r.id) ++ [db.nextInventoryId] ∧
      db'.nextInventoryId = db.nextInventoryId + 1 ∧
      (∃ r ∈ db'.inventory, r.id = db.nextInventoryId ∧
        invMatch pid cid kid r = false) ∧
      (∀ r' ∈ db'.inventory, invMatch pid cid kid r' = true →
        r' ∈ db.inventory) := by
  obtain ⟨it2, happly, hid2, hstat2, hmatch2⟩ :=
    apply_provisioning_snd c.esim c.pr
      (⟨db.nextInventoryId, pid, cid, kid, some c.pr.activation_code,
        c.pr.iccid, c.pr.qr_payload, c.pr.instructions, .assigned,
        c.pr.provider_reference, c.pr.metadata, none, some now⟩ : EsimInventory)
      c.freshCode c.freshIccid now
  have hpnew : invMatch pid cid kid
      (⟨db.nextInventoryId, pid, cid, kid, some c.pr.activation_code,
        c.pr.iccid, c.pr.qr_payload, c.pr.instructions, .assigned,
        c.pr.provider_reference, c.pr.metadata, none, some now⟩ : EsimInventory)
      = false := by
    simp [invMatch]
  have hall : ∀ r ∈ db.inventory ++
      [(⟨db.nextInventoryId, pid, cid, kid, some c.pr.activation_code,
        c.pr.iccid, c.pr.qr_payload, c.pr.instructions, .assigned,
        c.pr.provider_reference, c.pr.metadata, none, some now⟩ : EsimInventory)],
      r.id = it2.id → invMatch pid cid kid r = false := by
    intro r hr hrid
    rcases List.mem_append.1 hr with h | h
    · exfalso
      have := hbound r h
      rw [hrid, hid2] at this
      exact absurd this (by simp)
    · rw [List.mem_singleton.1 h]
      exact hpnew
  refine ⟨{ db with
      inventory := (db.inventory ++
        [(⟨db.nextInventoryId, pid, cid, kid, some c.pr.activation_code,
          c.pr.iccid, c.pr.qr_payload, c.pr.instructions, .assigned,
          c.pr.provider_reference, c.pr.metadata, none, some now⟩ : EsimInventory)]).map
        (fun r => if r.id == it2.id then it2 else r)
      nextInventoryId := db.nextInventoryId + 1 },
    ?_, ?_, ?_, ?_, ?_, ?_⟩
  · unfold allocOne
    simp only [reserve_eq_of_countP_zero hzero,
      create_inventory_from_provisioning, happly]
  · show ((db.inventory ++
        [(⟨db.nextInventoryId, pid, cid, kid, some c.pr.activation_code,
          c.pr.iccid, c.pr.qr_payload, c.pr.instructions, .assigned,
          c.pr.provider_reference, c.pr.metadata, none, some now⟩ : EsimInventory)]).map
        (fun r => if r.id == it2.id then it2 else r)).countP
        (invMatch pid cid kid) = 0
    rw [countP_map_replace_of_all_neg hall (hmatch2 pid cid kid),
      List.countP_append, hzero, List.countP_cons]
    simp [hpnew]
  · show (((db.inventory ++
        [(⟨db.nextInventoryId, pid, cid, kid, some c.pr.activation_code,
          c.pr.iccid, c.pr.qr_payload, c.pr.instructions, .assigned,
          c.pr.provider_reference, c.pr.metadata, none, some now⟩ : EsimInventory)]).map
        (fun r => if r.id == it2.id then it2 else r)).map (fun r => r.id))
      = db.inventory.map (fun r => r.id) ++ [db.nextInventoryId]
    rw [ids_map_replace rfl, List.map_append]
    rfl
  · rfl
  · refine ⟨it2, ?_, by rw [hid2], hmatch2 pid cid kid⟩
    have hmem : (⟨db.nextInventoryId, pid, cid, kid, some c.pr.activation_code,
        c.pr.iccid, c.pr.qr_payload, c.pr.instructions, .assigned,
        c.pr.provider_reference, c.pr.metadata, none, some now⟩ : EsimInventory)
        ∈ db.inventory ++
          [(⟨db.nextInventoryId, pid, cid, kid, some c.pr.activation_code,
            c.pr.iccid, c.pr.qr_payload, c.pr.instructions, .assigned,
            c.pr.provider_reference, c.pr.metadata, none, some now⟩ : EsimInventory)] :=
      List.mem_append_right _ (List.mem_singleton_self _)
    show it2 ∈ (db.inventory ++
        [(⟨db.nextInventoryId, pid, cid, kid, some c.pr.activation_code,
          c.pr.iccid, c.pr.qr_payload, c.pr.instructions, .assigned,
          c.pr.provider_reference, c.pr.metadata, none, some now⟩ : EsimInventory)]).map
        (fun r => if r.id == it2.id then it2 else r)
    refine List.mem_map.2 ⟨_, hmem, ?_⟩
    rw [hid2]
    simp
  · intro r' hr' hp'
    have h1 := mem_of_mem_map_replace_of_pos hr' hp' (hmatch2 pid cid kid)
    rcases List.mem_append.1 h1 with h | h
    · exact h
    · exfalso
      rw [List.mem_singleton.1 h] at hp'
      rw [hpnew] at hp'
      cases hp'

theorem allocRun_nil (db : DB) (pid cid kid : Option Nat) (now : Nat) :
    allocRun db pid cid kid [] now = (db, []) := rfl

theorem allocRun_cons (db : DB) (pid cid kid : Option Nat)
    (c : ActivationCall) (rest : List ActivationCall) (now : Nat) :
    allocRun db pid cid kid (c :: rest) now
      = ((allocRun (allocOne db pid cid kid c now).1 pid cid kid rest now).1,
          (allocOne db pid cid kid c now).2 ::
            (allocRun (allocOne db pid cid kid c now).1 pid cid kid rest now).2) :=
  rfl

theorem eq_of_mem_same_id {l : List EsimInventory}
    (hnd : (l.map (fun r => r.id)).Nodup)
    {a b : EsimInventory} (ha : a ∈ l) (hb : b ∈ l) (hab : a.id = b.id) :
    a = b :=
  List.inj_on_of_nodup_map hnd ha hb hab

/-- The interleaving invariant for a run of racing activations over the
same filters: exactly `min N M` of the `N` calls are served from the `M`
available matching rows, the rest from the fallback provider, the served
inventory ids are pairwise distinct, each served id was either an
available match of the initial pool or freshly materialized, and the
pool's id-uniqueness and id-bound invariants persist. -/
theorem allocRun_spec (calls : List ActivationCall) (db : DB)
    (pid cid kid : Option Nat) (now : Nat)
    (hnodup : (db.inventory.map (fun r => r.id)).Nodup)
    (hbound : ∀ r ∈ db.inventory, r.id < db.nextInventoryId) :
    (((allocRun db pid cid kid calls now).2).countP (fun s => s.isFromInventory)
        = min calls.length (db.inventory.countP (invMatch pid cid kid))) ∧
    (((allocRun db pid cid kid calls now).2).countP (fun s => !(s.isFromInventory))
        = calls.length
          - min calls.length (db.inventory.countP (invMatch pid cid kid))) ∧
    ((((allocRun db pid cid kid calls now).2).map (fun s => s.invId)).Nodup) ∧
    (∀ i ∈ ((allocRun db pid cid kid calls now).2).map (fun s => s.invId),
        (∃ r ∈ db.inventory, r.id = i ∧ invMatch pid cid kid r = true) ∨
          db.nextInventoryId ≤ i) ∧
    ((((allocRun db pid cid kid calls now).1).inventory.map (fun r => r.id)).Nodup) ∧
    (∀ r ∈ ((allocRun db pid cid kid calls now).1).inventory,
        r.id < ((allocRun db pid cid kid calls now).1).nextInventoryId) ∧
    (db.nextInventoryId ≤ ((allocRun db pid cid kid calls now).1).nextInventoryId) ∧
    (∀ i, (∃ r ∈ ((allocRun db pid cid kid calls now).1).inventory,
          r.id = i ∧ invMatch pid cid kid r = true) →
        (∃ r ∈ db.inventory, r.id = i ∧ invMatch pid cid kid r = true)) := by
  induction calls generalizing db with
  | nil =>
    rw [allocRun_nil]
    exact ⟨by simp, by simp, by simp, by simp, hnodup, hbound, Nat.le_refl _,
      fun i h => h⟩
  | cons c rest ih =>
    by_cases hA : db.inventory.countP (invMatch pid cid kid) = 0
    · -- fallback step
      obtain ⟨db', hstep, hcnt, hids, hnext, hserved, hback⟩ :=
        allocOne_miss db pid cid kid c now hbound hA
      have hnodup' : (db'.inventory.map (fun r => r.id)).Nodup := by
        rw [hids, List.nodup_append]
        refine ⟨hnodup, List.nodup_singleton _, ?_⟩
        intro a ha hb
        rcases List.mem_map.1 ha with ⟨r, hr, hra⟩
        have h1 := hbound r hr
        have h2 := List.mem_singleton.1 hb
        omega
      have hbound' : ∀ r ∈ db'.inventory, r.id < db'.nextInventoryId := by
        intro r hr
        have hin : r.id ∈ db'.inventory.map (fun x => x.id) :=
          List.mem_map_of_mem _ hr
        rw [hids] at hin
        rw [hnext]
        rcases List.mem_append.1 hin with h | h
        · rcases List.mem_map.1 h with ⟨r0, hr0, hr0e⟩
          have := hbound r0 hr0
          omega
        · have := List.mem_singleton.1 h
          omega
      obtain ⟨ih1, ih2, ih3, ih4, ih5, ih6, ih7, ih8⟩ := ih db' hnodup' hbound'
      rw [allocRun_cons]
      simp only [hstep]
      refine ⟨?_, ?_, ?_, ?_, ih5, ih6, ?_, ?_⟩
      · have hhead : ((if (fun s => s.isFromInventory)
            (ActivationSource.fromFallback db.nextInventoryId) = true
            then 1 else 0) : Nat) = 0 := rfl
        rw [List.countP_cons, ih1, hcnt, hA, hhead, List.length_cons]
        omega
      · have hhead : ((if (fun s => !(s.isFromInventory))
            (ActivationSource.fromFallback db.nextInventoryId) = true
            then 1 else 0) : Nat) = 1 := rfl
        rw [List.countP_cons, ih2, hcnt, hA, hhead, List.length_cons]
        omega
      · simp only [List.map_cons, List.nodup_cons, ActivationSource.invId]
        refine ⟨?_, ih3⟩
        intro hmem
        rcases ih4 _ hmem with hmatch | hge
        · rcases hmatch with ⟨r, hr, hrid, hrp⟩
          rcases hserved with ⟨r0, hr0, hr0id, hr0p⟩
          have heq : r = r0 :=
            eq_of_mem_same_id hnodup' hr hr0 (by rw [hrid, hr0id])
          rw [heq, hr0p] at hrp
          cases hrp
        · rw [hnext] at hge
          omega
      · intro i hi
        simp only [List.map_cons, List.mem_cons, ActivationSource.invId] at hi
        rcases hi with hhead | htail
        · right
          omega
        · rcases ih4 i htail with hmatch | hge
          · rcases hmatch with ⟨r, hr, hrid, hrp⟩
            exact Or.inl ⟨r, hback r hr hrp, hrid, hrp⟩
          · right
            rw [hnext] at hge
            omega
      · have hmono : db.nextInventoryId ≤ db'.nextInventoryId := by
          rw [hnext]
          exact Nat.le_succ _
        exact le_trans hmono ih7
      · intro i hi
        rcases ih8 i hi with ⟨r, hr, hrid, hrp⟩
        exact ⟨r, hback r hr hrp, hrid, hrp⟩
    · -- inventory-hit step
      obtain ⟨servedId, db', hstep, hcnt, hids, hnext, hsbound, hsmatch,
        hserved, hback⟩ := allocOne_hit db pid cid kid c now hnodup hbound hA
      have hnodup' : (db'.inventory.map (fun r => r.id)).Nodup := by
        rw [hids]
        exact hnodup
      have hbound' : ∀ r ∈ db'.inventory, r.id < db'.nextInventoryId := by
        intro r hr
        have hin : r.id ∈ db'.inventory.map (fun x => x.id) :=
          List.mem_map_of_mem _ hr
        rw [hids] at hin
        rcases List.mem_map.1 hin with ⟨r0, hr0, hr0e⟩
        rw [hnext]
        have := hbound r0 hr0
        omega
      obtain ⟨ih1, ih2, ih3, ih4, ih5, ih6, ih7, ih8⟩ := ih db' hnodup' hbound'
      rw [allocRun_cons]
      simp only [hstep]
      refine ⟨?_, ?_, ?_, ?_, ih5, ih6, ?_, ?_⟩
      · have hhead : ((if (fun s => s.isFromInventory)
            (ActivationSource.fromInventory servedId) = true
            then 1 else 0) : Nat) = 1 := rfl
        have hAp : 0 < db.inventory.countP (invMatch pid cid kid) :=
          Nat.pos_of_ne_zero hA
        rw [List.countP_cons, ih1, hcnt, hhead, List.length_cons]
        omega
      · have hhead : ((if (fun s => !(s.isFromInventory))
            (ActivationSource.fromInventory servedId) = true
            then 1 else 0) : Nat) = 0 := rfl
        have hAp : 0 < db.inventory.countP (invMatch pid cid kid) :=
          Nat.pos_of_ne_zero hA
        rw [List.countP_cons, ih2, hcnt, hhead, List.length_cons]
        omega
      · simp only [List.map_cons, List.nodup_cons, ActivationSource.invId]
        refine ⟨?_, ih3⟩
        intro hmem
        rcases ih4 _ hmem with hmatch | hge
        · rcases hmatch with ⟨r, hr, hrid, hrp⟩
          rcases hserved with ⟨r0, hr0, hr0id, hr0p⟩
          have heq : r = r0 :=
            eq_of_mem_same_id hnodup' hr hr0 (by rw [hrid, hr0id])
          rw [heq, hr0p] at hrp
          cases hrp
        · rw [hnext] at hge
          omega
      · intro i hi
        simp only [List.map_cons, List.mem_cons, ActivationSource.invId] at hi
        rcases hi with hhead | htail
        · left
          rw [hhead]
          exact hsmatch
        · rcases ih4 i htail with hmatch | hge
          · rcases hmatch with ⟨r, hr, hrid, hrp⟩
            exact Or.inl ⟨r, hback r hr hrp, hrid, hrp⟩
          · right
            rw [hnext] at hge
            omega
      · rw [← hnext]
        exact ih7
      · intro i hi
        rcases ih8 i hi with ⟨r, hr, hrid, hrp⟩
        exact ⟨r, hback r hr hrp, hrid, hrp⟩

/-- C6: N racing activations over the same plan/country/carrier filters,
against a pool holding M < N available matching rows, modelled as any
sequence of atomic claim-or-fallback steps (the atomicity `FOR UPDATE SKIP
LOCKED` provides; a caller finding no available row takes the fallback
immediately instead of blocking): exactly M calls are served from
inventory, the remaining N − M from the fallback provider, and the
inventory rows the N activations end up reserved/assigned to are pairwise
distinct — no row is ever handed to two activations. -/
theorem no_double_assignment
    (db : DB) (pid cid kid : Option Nat) (calls : List ActivationCall) (now : Nat)
    (hnodup : (db.inventory.map (fun r => r.id)).Nodup)
    (hbound : ∀ r ∈ db.inventory, r.id < db.nextInventoryId)
    (hMN : db.inventory.countP (invMatch pid cid kid) < calls.length) :
    (((allocRun db pid cid kid calls now).2).countP (fun s => s.isFromInventory)
        = db.inventory.countP (invMatch pid cid kid)) ∧
    (((allocRun db pid cid kid calls now).2).countP (fun s => !(s.isFromInventory))
        = calls.length - db.inventory.countP (invMatch pid cid kid)) ∧
    ((((allocRun db pid cid kid calls now).2).map (fun s => s.invId)).Nodup) := by
  obtain ⟨h1, h2, h3, -, -, -, -, -⟩ :=
    allocRun_spec calls db pid cid kid now hnodup hbound
  have hmin : min calls.length (db.inventory.countP (invMatch pid cid kid))
      = db.inventory.countP (invMatch pid cid kid) := by omega
  exact ⟨by rw [h1, hmin], by rw [h2, hmin], h3⟩

/-- C6, witness: two racing activations over a one-item plan-1 pool — one
served from inventory, one from the fallback, with distinct rows. -/
theorem no_double_assignment_witness :
    ((allocRun wC6db (some 1) none none wC6calls 4).2).countP
        (fun s => s.isFromInventory) = 1 ∧
    ((allocRun wC6db (some 1) none none wC6calls 4).2).countP
        (fun s => !(s.isFromInventory)) = 1 ∧
    (((allocRun wC6db (some 1) none none wC6calls 4).2).map
        (fun s => s.invId)).Nodup := by
  have h := no_double_assignment wC6db (some 1) none none wC6calls 4
    (by decide) (by decide) (by decide)
  refine ⟨?_, ?_, h.2.2⟩
  · rw [h.1]
    decide
  · rw [h.2.1]
    decide

end Tribi
